import Mathlib

/-!
Verification development for the faceswap configuration subsystem
(`lib/config.py`).  The Python module is shallowly embedded: the in-memory
schema (`self.defaults`) and the `ConfigParser` state (`self.config`) become
explicit association lists, pure string manipulation becomes executable Lean
functions on `List Char` / `String`, and fallible operations return
`Except String`.

Modelling notes that apply throughout:
* Python strings are modelled as Lean `String`s; `str.strip`, `str.lower`,
  `str.split`, `str.startswith` are re-implemented structurally on `List Char`
  so that every definition reduces in the kernel.
* `ConfigParser` is modelled as an ordered association list of sections, each
  an ordered association list of keys to optional values (`allow_no_value=True`
  stores comment blocks as keys with no value).  Interpolation (`%`) and the
  file serialisation round (write-then-read of `key = value` lines) are not
  modelled: all claims are about the in-memory state that the source code
  itself reads and writes.
* Python `float` values only ever flow through `str()` and `float()` in this
  module (no arithmetic), so they are modelled as exact decimals
  (mantissa × 10^-exponent), mirroring the shortest-decimal round trip that
  `str`/`float` guarantee.  Exponent notation for very large/small magnitudes
  is outside the modelled range.
-/

namespace FaceswapConfig

/-! ### Python string primitives -/

/-- Python `str.strip()` on a character list: drop whitespace from both ends. -/
def stripChars (cs : List Char) : List Char :=
  ((cs.dropWhile Char.isWhitespace).reverse.dropWhile Char.isWhitespace).reverse

/-- Python `str.strip()`. -/
def pyStrip (s : String) : String := ⟨stripChars s.data⟩

/-- Python `str.lower()` (ASCII range, which is all the module compares). -/
def pyLower (s : String) : String := ⟨s.data.map Char.toLower⟩

/-- Python `str.upper()`. -/
def pyUpper (s : String) : String := ⟨s.data.map Char.toUpper⟩

/-- Python `str.startswith(p)`. -/
def listStarts : List Char → List Char → Bool
  | [], _ => true
  | _ :: _, [] => false
  | a :: as, b :: bs => a == b && listStarts as bs

/-- Python `s.startswith(p)` on strings. -/
def strStarts (s p : String) : Bool := listStarts p.data s.data

/-- Attach a character to the head part of an already-split suffix. -/
def splitConsHead (c : Char) : List (List Char) → List (List Char)
  | h :: t => (c :: h) :: t
  | [] => [[c]]

/-- Python `s.split(sep)` for a single-character separator: keeps empty parts. -/
def splitOnCharList (sep : Char) : List Char → List (List Char)
  | [] => [[]]
  | c :: rest =>
    if c == sep then [] :: splitOnCharList sep rest
    else splitConsHead c (splitOnCharList sep rest)

/-- Python `s.split()` (split on whitespace runs, dropping empty parts);
the accumulator holds the current word reversed. -/
def splitWsAux : List Char → List Char → List (List Char)
  | [], cur => if cur.isEmpty then [] else [cur.reverse]
  | c :: rest, cur =>
    if c.isWhitespace then
      if cur.isEmpty then splitWsAux rest [] else cur.reverse :: splitWsAux rest []
    else splitWsAux rest (c :: cur)

/-- Python `sep.join(parts)`. -/
def joinWith (sep : String) : List String → String
  | [] => ""
  | [x] => x
  | x :: xs => x ++ sep ++ joinWith sep xs

/-! ### Python numeric text conversions -/

/-- The decimal digit character for `d < 10`. -/
def natToDigitChar (d : Nat) : Char := Char.ofNat (48 + d)

/-- Big-endian decimal digits of `n`, with explicit fuel (`fuel ≥ n` suffices);
structural recursion keeps it kernel-reducible. -/
def natReprAux : Nat → Nat → List Char
  | 0, _ => []
  | _ + 1, 0 => []
  | fuel + 1, n => natReprAux fuel (n / 10) ++ [natToDigitChar (n % 10)]

/-- Python `str(n)` for a natural number. -/
def natRepr (n : Nat) : String := if n = 0 then "0" else ⟨natReprAux n n⟩

/-- Python `str(i)` for an integer. -/
def intRepr (i : Int) : String :=
  if i < 0 then "-" ++ natRepr i.natAbs else natRepr i.natAbs

/-- Numeric value of a decimal digit character, `none` for non-digits. -/
def digitVal? (c : Char) : Option Nat :=
  if c.isDigit then some (c.toNat - 48) else none

/-- Horner evaluation of a decimal digit string; fails on a non-digit. -/
def parseNatCore : List Char → Nat → Option Nat
  | [], acc => some acc
  | c :: rest, acc =>
    match digitVal? c with
    | some d => parseNatCore rest (acc * 10 + d)
    | none => none

/-- Python `int(s)` restricted to the forms this module produces and consumes:
optional surrounding whitespace, optional sign, one or more decimal digits. -/
def pyParseInt (s : String) : Option Int :=
  match stripChars s.data with
  | [] => none
  | c :: rest =>
    if c = '-' then
      if rest.isEmpty then none else (parseNatCore rest 0).map (fun n => -(n : Int))
    else if c = '+' then
      if rest.isEmpty then none else (parseNatCore rest 0).map (fun n => (n : Int))
    else (parseNatCore (c :: rest) 0).map (fun n => (n : Int))

/-- Python `configparser.getboolean` accepted forms (`BOOLEAN_STATES`). -/
def pyParseBool (s : String) : Option Bool :=
  let l := pyLower s
  if l = "1" ∨ l = "yes" ∨ l = "true" ∨ l = "on" then some true
  else if l = "0" ∨ l = "no" ∨ l = "false" ∨ l = "off" then some false
  else none

/-- Exact decimal: `mant × 10^(-exp)`.  Stand-in for Python `float`, which in
this module is only parsed from and printed to decimal text. -/
structure Dec where
  mant : Int
  exp : Nat
  deriving DecidableEq, Repr

/-- The rational value of a decimal. -/
def decValue (d : Dec) : Rat := (d.mant : Rat) / (10 : Rat) ^ d.exp

/-- Strip trailing zero decimals, as Python's shortest-repr `str(float)` does. -/
def decNormalizeAux : Int → Nat → Dec
  | m, 0 => ⟨m, 0⟩
  | m, e + 1 => if m % 10 = 0 then decNormalizeAux (m / 10) e else ⟨m, e + 1⟩

/-- Strip trailing zero decimals of a decimal. -/
def decNormalize (d : Dec) : Dec := decNormalizeAux d.mant d.exp

/-- Left-pad a digit list with zeros to the requested width. -/
def padZeros (width : Nat) (ds : List Char) : List Char :=
  List.replicate (width - ds.length) '0' ++ ds

/-- Digit list of a natural number (empty for zero). -/
def natDigits (n : Nat) : List Char := natReprAux n n

/-- Decimal text for a mantissa/exponent pair: sign, integer digits, point,
exponent-many fractional digits (`".0"` when the exponent is zero). -/
def decReprPlain (m : Int) (e : Nat) : String :=
  let sign : String := if m < 0 then "-" else ""
  let a := m.natAbs
  if e = 0 then sign ++ natRepr a ++ ".0"
  else sign ++ natRepr (a / 10 ^ e) ++ "." ++ (⟨padZeros e (natDigits (a % 10 ^ e))⟩ : String)

/-- Python `str(f)` for a float value: always shows at least one decimal
(`str(4.0) = "4.0"`), with trailing zeros stripped (`str(2.50) = "2.5"`). -/
def decRepr (d : Dec) : String :=
  let n := decNormalize d
  decReprPlain n.mant n.exp

/-- Unsigned decimal parser: `digits`, `digits.digits`, `.digits` or `digits.`. -/
def parseDecCore (cs : List Char) : Option Dec :=
  match splitOnCharList '.' cs with
  | [ds] =>
    if ds.isEmpty then none
    else (parseNatCore ds 0).map (fun n => ⟨(n : Int), 0⟩)
  | [ds, fs] =>
    if ds.isEmpty && fs.isEmpty then none
    else
      match parseNatCore ds 0, parseNatCore fs 0 with
      | some a, some b => some ⟨(a : Int) * (10 : Int) ^ fs.length + (b : Int), fs.length⟩
      | _, _ => none
  | _ => none

/-- Python `float(s)` restricted to plain signed decimal notation. -/
def pyParseDec (s : String) : Option Dec :=
  match stripChars s.data with
  | [] => none
  | c :: rest =>
    if c = '-' then (parseDecCore rest).map (fun d => ⟨-d.mant, d.exp⟩)
    else if c = '+' then parseDecCore rest
    else parseDecCore (c :: rest)

/-! ### Data model

`FaceswapConfig.add_item` accepts `datatype` drawn from the five Python type
objects `str, bool, int, float, list`; any other object is rejected before an
entry is stored, so the embedded schema uses a closed enumeration. -/

/-- The five recognised option value types. -/
inductive DataType
  | dstr
  | dbool
  | dint
  | dfloat
  | dlist
  deriving DecidableEq, Repr

/-- The Python values that flow through this module: raw text, booleans,
integers, floats (exact decimals, see `Dec`), lists of strings, and `None`. -/
inductive PyVal
  | vStr (s : String)
  | vBool (b : Bool)
  | vInt (i : Int)
  | vFloat (d : Dec)
  | vList (l : List String)
  | vNone
  deriving DecidableEq, Repr

/-- Python `str(v)` for the values above.  `str` of a list uses `repr` of the
elements, producing bracketed, quoted, comma-separated text. -/
def pyStr : PyVal → String
  | .vStr s => s
  | .vBool b => if b then "True" else "False"
  | .vInt i => intRepr i
  | .vFloat d => decRepr d
  | .vList l => "[" ++ joinWith ", " (l.map (fun s => "\x27" ++ s ++ "\x27")) ++ "]"
  | .vNone => "None"

/-- Python `==` on these values; floats compare by numeric value (distinct
`Dec` representations of the same number are the same Python float). -/
def pyEq : PyVal → PyVal → Bool
  | .vFloat a, .vFloat b => decValue a == decValue b
  | a, b => a == b

/-- One schema entry, as stored by `add_item` into
`self.defaults[section][title]` (the dict literal at config.py:266-274). -/
structure ItemOpt where
  default : PyVal
  helptext : String
  type : DataType
  rounding : Option Int
  min_max : Option (PyVal × PyVal)
  choices : List String
  gui_radio : Bool
  fixed : Bool
  group : Option String
  deriving DecidableEq, Repr

/-- One section of `self.defaults`: the Python code stores the section help
under the reserved key `"helptext"` and every iteration over the section skips
that key, so the embedding keeps it as a separate field.  (An option literally
titled `"helptext"` would silently clobber the section help in the source;
theorems below carry the corresponding freshness hypotheses.) -/
structure SectionDefaults where
  name : String
  helptext : String
  items : List (String × ItemOpt)
  deriving DecidableEq, Repr

/-- `self.defaults`: an ordered map from section name to section schema. -/
abbrev Defaults := List SectionDefaults

/-- `self.config` (a `ConfigParser` with `allow_no_value=True` and identity
`optionxform`): ordered sections of ordered key/value pairs; a key with value
`none` is a stored comment block. -/
abbrev PyConfig := List (String × List (String × Option String))

/-! ### Association-list primitives mirroring dict / ConfigParser updates -/

/-- Generic string-keyed association update: overwrite in place, else append
(Python dict assignment order semantics). -/
def assocSet {B : Type} : List (String × B) → String → B → List (String × B)
  | [], k, v => [(k, v)]
  | p :: rest, k, v => if p.1 == k then (k, v) :: rest else p :: assocSet rest k v

/-- First entry with the given key. -/
def assocFind {B : Type} (l : List (String × B)) (k : String) : Option (String × B) :=
  l.find? (fun p => p.1 == k)

/-- Python dict assignment `d[k] = v` on a section's key/value pairs. -/
def setKV (kvs : List (String × Option String)) (k : String) (v : Option String) :
    List (String × Option String) :=
  assocSet kvs k v

/-- `ConfigParser.set(section, key, value)`: update the named section.
(When the section is missing Python raises `NoSectionError`; every call site
in the module reads the same section first, so that branch is unreachable and
is modelled as a no-op.) -/
def cfgSet : PyConfig → String → String → Option String → PyConfig
  | [], _, _, _ => []
  | (name, kvs) :: rest, s, k, v =>
    if name == s then (name, setKV kvs k v) :: rest
    else (name, kvs) :: cfgSet rest s k v

/-- The key/value pairs of section `s`, when present. -/
def cfgSection (cfg : PyConfig) (s : String) : Option (List (String × Option String)) :=
  (assocFind cfg s).map (fun p => p.2)

/-- `ConfigParser.get(section, option)` without type conversion: fails like
`NoSectionError` / `NoOptionError`, returns `none` for a valueless key. -/
def rawGet (cfg : PyConfig) (s o : String) : Except String (Option String) :=
  match cfgSection cfg s with
  | none => .error "NoSectionError"
  | some kvs =>
    match assocFind kvs o with
    | none => .error "NoOptionError"
    | some p => .ok p.2

/-- Schema lookup `self.defaults[section]`. -/
def lookupSection (dflts : Defaults) (s : String) : Option SectionDefaults :=
  dflts.find? (fun sd => sd.name == s)

/-- Schema lookup `self.defaults[section][option]`. -/
def lookupItem (dflts : Defaults) (s o : String) : Option ItemOpt :=
  match lookupSection dflts s with
  | none => none
  | some sd => (assocFind sd.items o).map (fun p => p.2)

/-! ### `_parse_list` (config.py:162-188) -/

/-- `raw_option.split(delimiter)` with Python semantics: a concrete separator
keeps empty parts, `None` splits on whitespace runs. -/
def pySplit (raw : String) : Option Char → List String
  | some c => (splitOnCharList c raw.data).map (fun l => (⟨l⟩ : String))
  | none => (splitWsAux raw.data []).map (fun l => (⟨l⟩ : String))

/-- `FaceswapConfig._parse_list` on the raw stored string: empty string gives
`[]`; otherwise split on `","` when a comma is present, else on whitespace,
then `strip().lower()` each token. -/
def parse_list (raw_option : String) : List String :=
  if raw_option = "" then []
  else
    let delimiter : Option Char := if raw_option.data.contains ',' then some ',' else none
    (pySplit raw_option delimiter).map (fun o => pyLower (pyStrip o))

/-- `_parse_list` applied to what `config.get` returned: a valueless key is
falsy in Python, so it also yields the empty list. -/
def parse_list_raw : Option String → List String
  | none => []
  | some s => parse_list s

/-! ### `get` (config.py:129-160) -/

/-- The post-dispatch normalisation at config.py:157-158: only a `str` result
equal (case-insensitively) to `"none"` becomes `None`. -/
def normNone : PyVal → PyVal
  | .vStr s => if pyLower s = "none" then .vNone else .vStr s
  | v => v

/-- `FaceswapConfig.get`: look up the declared type, dispatch to the matching
parser, then normalise a textual `"none"`.  A schema miss is Python's
`KeyError`; converter failures are `ValueError`/`TypeError`. -/
def get (dflts : Defaults) (cfg : PyConfig) (sect optn : String) : Except String PyVal :=
  match lookupItem dflts sect optn with
  | none => .error "KeyError"
  | some opt =>
    let retval : Except String PyVal :=
      match opt.type with
      | .dbool =>
        match rawGet cfg sect optn with
        | .error e => .error e
        | .ok none => .error "TypeError: boolean conversion of a valueless key"
        | .ok (some s) =>
          match pyParseBool s with
          | some b => .ok (.vBool b)
          | none => .error "ValueError: not a boolean"
      | .dint =>
        match rawGet cfg sect optn with
        | .error e => .error e
        | .ok none => .error "TypeError: int conversion of a valueless key"
        | .ok (some s) =>
          match pyParseInt s with
          | some i => .ok (.vInt i)
          | none => .error "ValueError: invalid literal for int"
      | .dfloat =>
        match rawGet cfg sect optn with
        | .error e => .error e
        | .ok none => .error "TypeError: float conversion of a valueless key"
        | .ok (some s) =>
          match pyParseDec s with
          | some d => .ok (.vFloat d)
          | none => .error "ValueError: could not convert string to float"
      | .dlist =>
        match rawGet cfg sect optn with
        | .error e => .error e
        | .ok raw => .ok (.vList (parse_list_raw raw))
      | .dstr =>
        match rawGet cfg sect optn with
        | .error e => .error e
        | .ok none => .ok .vNone
        | .ok (some s) => .ok (.vStr s)
    retval.map normNone

/-! ### Help-text assembly (config.py:276-296 and 346-361) -/

/-- Greedy word wrap standing in for `textwrap.fill(text, width, tabsize=4,
subsequent_indent=indent)`: words are whitespace-separated, lines are packed
greedily to the width, continuation lines get the indent.  (Tab expansion and
overlong-word breaking are not modelled; nothing in the claims depends on the
wrapped layout, only on the leading comment marker added afterwards.) -/
def fillAux (width : Nat) (indent : String) : List String → List String → String → List String
  | [], done, cur => done ++ [cur]
  | w :: rest, done, cur =>
    let cand := cur ++ " " ++ w
    if cand.length ≤ width then fillAux width indent rest done cand
    else fillAux width indent rest (done ++ [cur]) (indent ++ w)

/-- `textwrap.fill` entry point; empty text wraps to the empty string. -/
def textwrap_fill (s : String) (width : Nat) (indent : String) : String :=
  match (splitWsAux s.data []).map (fun l => (⟨l⟩ : String)) with
  | [] => ""
  | w :: ws => joinWith "\n" (fillAux width indent ws [] w)

/-- `formatted.replace("\n", "\n# ")` — the pattern is a single newline. -/
def commentContinue : List Char → List Char
  | [] => []
  | c :: rest =>
    if c == '\n' then '\n' :: '#' :: ' ' :: commentContinue rest
    else c :: commentContinue rest

/-- `FaceswapConfig.format_help`: wrap each help line to a 100-column comment
block (tab-led lines become indented bullets), prefix every line with `# `,
upper-case the block for sections, prepend a blank line for items. -/
def format_help (helptext : String) (is_section : Bool) : String :=
  let formatted :=
    ((splitOnCharList '\n' helptext.data).map (fun l => (⟨l⟩ : String))).foldl
      (fun acc hlp =>
        let subsequent := if strStarts hlp "\t" then "\t\t" else ""
        let hlp := if strStarts hlp "\t" then "\t- " ++ pyStrip (hlp.drop 1) else hlp
        acc ++ textwrap_fill hlp 100 subsequent ++ "\n") ""
  let block := "# " ++ (⟨commentContinue (⟨formatted.data.dropLast⟩ : String).data⟩ : String)
  if is_section then pyUpper block else "\n" ++ block

/-- `FaceswapConfig.expand_helptext` (config.py:276-296): append the generated
guidance (mutability note, list syntax note, choices / boolean / numeric-range
enumeration, and the default-value annotation). -/
def expand_helptext (helptext : String) (choices : List String) (default : PyVal)
    (datatype : DataType) (min_max : Option (PyVal × PyVal)) (fixed : Bool) : String :=
  let h := helptext ++ "\n"
  let h := if !fixed then h ++ "\nThis option can be updated for existing models.\n" else h
  let h :=
    if datatype = .dlist then
      h ++ "\nIf selecting multiple options then each option should be separated by a space or a comma (e.g. item1, item2, item3)\n"
    else h
  let h :=
    if !choices.isEmpty then h ++ "\nChoose from: " ++ pyStr (.vList choices)
    else if datatype = .dbool then h ++ "\nChoose from: True, False"
    else if datatype = .dint then
      match min_max with
      | some (cmin, cmax) => h ++ "\nSelect an integer between " ++ pyStr cmin ++ " and " ++ pyStr cmax
      | none => h
    else if datatype = .dfloat then
      match min_max with
      | some (cmin, cmax) => h ++ "\nSelect a decimal number between " ++ pyStr cmin ++ " and " ++ pyStr cmax
      | none => h
    else h
  h ++ "\n[Default: " ++ pyStr default ++ "]"

/-! ### Schema declaration (config.py:204-274) -/

/-- Python dict assignment into `self.defaults`: redeclaring a section keeps
its position but resets its contents (`self.defaults[title] = OrderedDict()`;
the help text is stored immediately afterwards). -/
def setSection : Defaults → String → String → Defaults
  | [], t, info => [⟨t, info, []⟩]
  | sd :: rest, t, info =>
    if sd.name == t then ⟨t, info, []⟩ :: rest else sd :: setSection rest t info

/-- Store a finished entry under `self.defaults[section][title]`. -/
def setItemKV (items : List (String × ItemOpt)) (t : String) (e : ItemOpt) :
    List (String × ItemOpt) :=
  assocSet items t e

/-- Update one section's items in `self.defaults`. -/
def setItem : Defaults → String → String → ItemOpt → Defaults
  | [], _, _, _ => []
  | sd :: rest, s, t, e =>
    if sd.name == s then ⟨sd.name, sd.helptext, setItemKV sd.items t e⟩ :: rest
    else sd :: setItem rest s t e

/-- `FaceswapConfig.add_section`: title and info are both mandatory. -/
def add_section (dflts : Defaults) (title info : Option String) : Except String Defaults :=
  match title, info with
  | some t, some i => .ok (setSection dflts t i)
  | _, _ => .error "ValueError: sections must have a title and information text"

/-- The guard at config.py:260 reads `isinstance(datatype, list)`.  `datatype`
is one of the five *type objects* and a type object is never an instance of
`list`, so the test is `False` for every recognised datatype — the intended
`datatype == list` check never fires.  The embedding keeps the test as the
source wrote it. -/
def datatype_isinstance_list : DataType → Bool := fun _ => false

/-- `FaceswapConfig.add_item` (config.py:213-274), arguments positional in the
source order (`section title datatype default info rounding min_max choices
gui_radio fixed group`).  `choices or list()` maps `None` (and `[]`) to `[]`;
the `datatype not in (str, bool, float, int, list)` and
`isinstance(choices, (list, tuple))` guards cannot fire in the embedding
because `DataType` and `List String` are exactly those shapes. -/
def add_item (dflts : Defaults) (sctn title : Option String) (datatype : DataType)
    (default : Option PyVal) (info : Option String) (rounding : Option Int)
    (min_max : Option (PyVal × PyVal)) (choices : Option (List String))
    (gui_radio fixed : Bool) (group : Option String) : Except String Defaults :=
  let choices := choices.getD []
  match sctn, title, default, info with
  | some sctn, some title, some default, some info =>
    if (lookupSection dflts sctn).isNone then
      .error "ValueError: Section does not exist"
    else if (datatype = .dfloat ∨ datatype = .dint) ∧ (rounding.isNone ∨ min_max.isNone) then
      .error "ValueError: rounding and min_max must be set for numerical options"
    else if datatype_isinstance_list datatype && choices.isEmpty then
      .error "ValueError: choices must be defined for list based configuration items"
    else
      let info := expand_helptext info choices default datatype min_max fixed
      .ok (setItem dflts sctn title
        { default := default, helptext := info, type := datatype, rounding := rounding,
          min_max := min_max, choices := choices, gui_radio := gui_radio, fixed := fixed,
          group := group })
  | _, _, _, _ =>
    .error "ValueError: items must have a section, title, default and information text"

/-! ### Writing a config from the schema (config.py:306-344, 384-406) -/

/-- `insert_config_section`: add the section and store its wrapped help text
as a valueless key.  (In the source `config.add_section` would raise on a
duplicate name; the construction loops only ever add fresh names, which the
well-formedness hypotheses below guarantee.) -/
def insert_config_section (cfg : PyConfig) (sctn helptext : String) : PyConfig :=
  cfgSet (cfg ++ [(sctn, [])]) sctn (format_help helptext true) none

/-- `insert_config_item`: store the wrapped item help as a valueless key, then
the item itself with `str(default)` as value. -/
def insert_config_item (cfg : PyConfig) (sctn item : String) (default : PyVal)
    (opt : ItemOpt) : PyConfig :=
  cfgSet (cfgSet cfg sctn (format_help opt.helptext false) none) sctn item (some (pyStr default))

/-- The inner loop of `create_default` / `add_new_config_items`: insert every
item of a section, choosing each stored value with `f`. -/
def build_items (sname : String) (f : String → String → ItemOpt → PyVal) :
    PyConfig → List (String × ItemOpt) → PyConfig
  | cfg, [] => cfg
  | cfg, p :: rest =>
    build_items sname f (insert_config_item cfg sname p.1 (f sname p.1 p.2) p.2) rest

/-- The outer loop: insert every schema section into the config being built. -/
def build_config (f : String → String → ItemOpt → PyVal) :
    PyConfig → Defaults → PyConfig
  | cfg, [] => cfg
  | cfg, sd :: rest =>
    build_config f (build_items sd.name f (insert_config_section cfg sd.name sd.helptext) sd.items) rest

/-- `FaceswapConfig.create_default`: serialise every declared section and
option, writing the schema default as the value (config.py:306-320). -/
def create_default (dflts : Defaults) : PyConfig :=
  build_config (fun _ _ opt => opt.default) [] dflts

/-- The value chosen for one item by `add_new_config_items` (config.py:393-397):
the schema default for a brand-new section, else
`self.config[section].get(item, default)` — the stored string when the key
exists (a valueless key reads back as `None`), else the schema default. -/
def carry_value (cfg : PyConfig) (sname item : String) (opt : ItemOpt) : PyVal :=
  match cfgSection cfg sname with
  | none => opt.default
  | some kvs =>
    match assocFind kvs item with
    | some (_, some s) => .vStr s
    | some (_, none) => .vNone
    | none => opt.default

/-- `FaceswapConfig.add_new_config_items`: rebuild the whole config from the
schema, carrying forward values of options that still exist. -/
def add_new_config_items (cfg : PyConfig) (dflts : Defaults) : PyConfig :=
  build_config (carry_value cfg) [] dflts

/-! ### Drift detection (config.py:437-452) -/

/-- `set(a) == set(b)` on key lists. -/
def sameSet (a b : List String) : Bool :=
  a.all (fun x => b.contains x) && b.all (fun x => a.contains x)

/-- The non-comment keys of a section: `check_config_change` filters keys
starting with `"# "` or `"\n# "` (the shapes `format_help` produces). -/
def nonCommentKeys (kvs : List (String × Option String)) : List String :=
  (kvs.map Prod.fst).filter (fun k => !(strStarts k "# " || strStarts k "\n# "))

/-- `FaceswapConfig.check_config_change`: drift iff the section sets differ,
or some section's stored non-comment keys differ from its schema keys. -/
def check_config_change (cfg : PyConfig) (dflts : Defaults) : Bool :=
  if !sameSet (cfg.map Prod.fst) (dflts.map SectionDefaults.name) then true
  else
    dflts.any (fun sd =>
      !sameSet (nonCommentKeys ((cfgSection cfg sd.name).getD [])) (sd.items.map Prod.fst))

/-! ### Choice validation (config.py:408-435) -/

/-- Warnings are recorded as (section, item) pairs standing in for the
`logger.warning` calls. -/
abbrev Warnings := List (String × String)

/-- Multi-select branch of the `check_config_choices` loop (config.py:415-424):
parse the stored value (`opt_value` in the source, inlined here), leave empty
selections alone, and when any token is not a declared choice store the
comma-joined valid subset and warn. -/
def check_list_item (cfg : PyConfig) (s item : String) (choices : List String)
    (raw : Option String) : PyConfig × Warnings :=
  if (parse_list_raw raw).isEmpty then (cfg, [])
  else if (parse_list_raw raw).any (fun v => !choices.contains v) then
    (cfgSet cfg s item
      (some (joinWith ", " ((parse_list_raw raw).filter (fun v => choices.contains v)))),
     [(s, item)])
  else (cfg, [])

/-- Single-select branch (config.py:425-434): keep a case-insensitive `"none"`
when `"none"` is itself a choice; otherwise reset a non-member stored value to
`str(default)` and warn. -/
def check_single_item (cfg : PyConfig) (s item : String) (opt : ItemOpt)
    (str : String) : PyConfig × Warnings :=
  if pyLower str = "none" && opt.choices.any (fun c => pyLower c = "none") then (cfg, [])
  else if !opt.choices.contains str then
    (cfgSet cfg s item (some (pyStr opt.default)), [(s, item)])
  else (cfg, [])

/-- The body of the `check_config_choices` loop for one schema item.
Items without choices are skipped; config reads fail like the Python calls
(`NoSectionError`/`NoOptionError`, and `.lower()` on a valueless key raises).
-/
def check_item_choices (cfg : PyConfig) (s item : String) (opt : ItemOpt) :
    Except String (PyConfig × Warnings) :=
  if opt.choices.isEmpty then .ok (cfg, [])
  else if opt.type = .dlist then
    match rawGet cfg s item with
    | .error e => .error e
    | .ok raw => .ok (check_list_item cfg s item opt.choices raw)
  else
    match rawGet cfg s item with
    | .error e => .error e
    | .ok none => .error "AttributeError: NoneType has no attribute lower"
    | .ok (some str) => .ok (check_single_item cfg s item opt str)

/-- Sequentially validate every item of one section. -/
def check_items_choices : PyConfig → String → List (String × ItemOpt) →
    Except String (PyConfig × Warnings)
  | cfg, _, [] => .ok (cfg, [])
  | cfg, s, (item, opt) :: rest =>
    match check_item_choices cfg s item opt with
    | .error e => .error e
    | .ok (cfg1, w1) =>
      match check_items_choices cfg1 s rest with
      | .error e => .error e
      | .ok (cfg2, w2) => .ok (cfg2, w1 ++ w2)

/-- Sequentially validate every schema section. -/
def check_sections_choices : PyConfig → Defaults → Except String (PyConfig × Warnings)
  | cfg, [] => .ok (cfg, [])
  | cfg, sd :: rest =>
    match check_items_choices cfg sd.name sd.items with
    | .error e => .error e
    | .ok (cfg1, w1) =>
      match check_sections_choices cfg1 rest with
      | .error e => .error e
      | .ok (cfg2, w2) => .ok (cfg2, w1 ++ w2)

/-- `FaceswapConfig.check_config_choices`. -/
def check_config_choices (cfg : PyConfig) (dflts : Defaults) :
    Except String (PyConfig × Warnings) :=
  check_sections_choices cfg dflts

/-- `FaceswapConfig.validate_config` (config.py:375-382): regenerate the file
when drift was detected, then run choice validation. -/
def validate_config (cfg : PyConfig) (dflts : Defaults) :
    Except String (PyConfig × Warnings) :=
  let cfg := if check_config_change cfg dflts then add_new_config_items cfg dflts else cfg
  check_config_choices cfg dflts

/-! ### `config_dict` (config.py:113-127) -/

/-- Python dict assignment for the collated result. -/
def dictSet (d : List (String × PyVal)) (k : String) (v : PyVal) : List (String × PyVal) :=
  assocSet d k v

/-- Final value stored under a key of the collated dictionary. -/
def dictFind (d : List (String × PyVal)) (k : String) : Option PyVal :=
  (assocFind d k).map (fun p => p.2)

/-- Inner loop of `config_dict`: walk one present section's keys, skipping
comment keys (`startswith(("#", "\n"))`), resolving the rest through `get`. -/
def config_dict_keys (dflts : Defaults) (cfg : PyConfig) (sctn : String) :
    List (String × Option String) → List (String × PyVal) →
    Except String (List (String × PyVal))
  | [], conf => .ok conf
  | (key, _) :: rest, conf =>
    if strStarts key "#" || strStarts key "\n" then config_dict_keys dflts cfg sctn rest conf
    else
      match get dflts cfg sctn key with
      | .error e => .error e
      | .ok v => config_dict_keys dflts cfg sctn rest (dictSet conf key v)

/-- Outer loop of `config_dict` over the processed section names; names not
present in the config are skipped. -/
def config_dict_sections (dflts : Defaults) (cfg : PyConfig) :
    List String → List (String × PyVal) → Except String (List (String × PyVal))
  | [], conf => .ok conf
  | s :: rest, conf =>
    match cfgSection cfg s with
    | none => config_dict_sections dflts cfg rest conf
    | some kvs =>
      match config_dict_keys dflts cfg s kvs conf with
      | .error e => .error e
      | .ok conf1 => config_dict_sections dflts cfg rest conf1

/-- `FaceswapConfig.config_dict`: collate every `global`-prefixed section of
the stored config plus the instance's own section into one typed dictionary. -/
def config_dict (dflts : Defaults) (cfg : PyConfig) (selfSection : String) :
    Except String (List (String × PyVal)) :=
  let sections := (cfg.map Prod.fst).filter (fun s => strStarts s "global") ++ [selfSection]
  config_dict_sections dflts cfg sections []

/-! ### Decidable readiness / well-formedness predicates used in hypotheses -/

/-- A successful config read holding an actual string. -/
def isOkSome : Except String (Option String) → Bool
  | .ok (some _) => true
  | _ => false

/-- Every choice-validated item of one section has a stored string value. -/
def readyItemsB (cfg : PyConfig) (s : String) (items : List (String × ItemOpt)) : Bool :=
  items.all (fun p => p.2.choices.isEmpty || isOkSome (rawGet cfg s p.1))

/-- Every choice-validated item of the schema has a stored string value — the
state `validate_config` guarantees before `check_config_choices` runs. -/
def readyAllB (cfg : PyConfig) (dflts : Defaults) : Bool :=
  dflts.all (fun sd => readyItemsB cfg sd.name sd.items)

/-- The stored value at an item's own slot after its choice check ran, as a
function of the previous raw string (proof-support; assumes the item has
choices and a stored string). -/
def itemSlotOut (raw : String) (o : ItemOpt) : Option String :=
  if o.type = .dlist then
    if (parse_list raw).isEmpty then some raw
    else if (parse_list raw).any (fun v => !o.choices.contains v) then
      some (joinWith ", " ((parse_list raw).filter (fun v => o.choices.contains v)))
    else some raw
  else
    if pyLower raw = "none" && o.choices.any (fun c => pyLower c = "none") then some raw
    else if !o.choices.contains raw then some (pyStr o.default)
    else some raw

/-- Whether an item's choice check emits a warning, as a function of the
previous raw string (proof-support; same assumptions as `itemSlotOut`). -/
def itemWarns (raw : String) (o : ItemOpt) : Bool :=
  if o.type = .dlist then
    !(parse_list raw).isEmpty && (parse_list raw).any (fun v => !o.choices.contains v)
  else
    !(pyLower raw = "none" && o.choices.any (fun c => pyLower c = "none"))
      && !o.choices.contains raw

/-- Schema well-formedness: unique section names, unique titles per section,
and no title shaped like a stored comment key. -/
def wfDefaultsB (dflts : Defaults) : Bool :=
  ((dflts.map SectionDefaults.name).Nodup : Bool) &&
  dflts.all (fun sd =>
    ((sd.items.map Prod.fst).Nodup : Bool) &&
    sd.items.all (fun p => !(strStarts p.1 "#" || strStarts p.1 "\n")))

/-! ### Proof-support definitions -/

/-- A decimal digit character. -/
def isDigitChar (c : Char) : Prop := ∃ d, d < 10 ∧ c = natToDigitChar d

/-- The key/value pairs accumulated for one section of a generated config
(proof-support mirror of the `build_items` loop at the section level). -/
def buildKVs (sname : String) (f : String → String → ItemOpt → PyVal) :
    List (String × Option String) → List (String × ItemOpt) → List (String × Option String)
  | kvs, [] => kvs
  | kvs, p :: rest =>
    buildKVs sname f
      (setKV (setKV kvs (format_help p.2.helptext false) none) p.1 (some (pyStr (f sname p.1 p.2))))
      rest

/-- C8 support — the list-parsing rule as the specification words it (a
spec-mirror definition, to be compared with the source-translated
`parse_list`): empty raw value gives the empty sequence; otherwise split on
commas when one is present, else on whitespace; trim and lowercase tokens. -/
def parse_list_spec (raw : String) : List String :=
  if raw.data.isEmpty then []
  else if raw.data.contains ',' then
    (splitOnCharList ',' raw.data).map (fun t => pyLower (pyStrip (⟨t⟩ : String)))
  else
    (splitWsAux raw.data []).map (fun t => pyLower (pyStrip (⟨t⟩ : String)))

/-- C2 support — a one-option boolean schema whose stored value is the literal
text `None` (the state after declaring the option and loading such a file). -/
def c2Defaults : Defaults :=
  [⟨"s", "h", [("o", ⟨PyVal.vBool true, "h", DataType.dbool, none, none, [], false, true, none⟩)]⟩]

/-- C2 support — the loaded config holding `o = None`. -/
def c2Config : PyConfig := [("s", [("o", some "None")])]

/-- C2 witness support — a text-typed option. -/
def c2StrDefaults : Defaults :=
  [⟨"s", "h", [("o", ⟨PyVal.vStr "x", "h", DataType.dstr, none, none, [], false, true, none⟩)]⟩]

/-- C2 witness support — the loaded config holding `o = NONE`. -/
def c2StrConfig : PyConfig := [("s", [("o", some "NONE")])]

/-- C4 support — a schema with one declared section and no items yet. -/
def c4Defaults : Defaults := [⟨"sect", "inf", []⟩]

/-- C4 support — the failing declaration: a list-typed option with no choices
supplied (`choices = None`). -/
def c4Call : Except String Defaults :=
  add_item c4Defaults (some "sect") (some "opt") DataType.dlist (some (PyVal.vStr ""))
    (some "h") none none none false true none

/-- C3 support — the amended round-trip side condition: the option's declared
default matches its declared type, is not list-typed, and a text default is
not the case-insensitive literal `none`. -/
def typeOKb (opt : ItemOpt) : Bool :=
  match opt.type, opt.default with
  | .dbool, .vBool _ => true
  | .dint, .vInt _ => true
  | .dfloat, .vFloat _ => true
  | .dstr, .vStr s => !(pyLower s == "none")
  | _, _ => false

/-- C3 counterexample support — a schema whose single option is list-typed
with a Python-list default. -/
def c3Defaults : Defaults :=
  [⟨"sect", "shelp", [("opt",
    ⟨PyVal.vList ["a", "b"], "ihelp", DataType.dlist, none, none, ["a", "b"], false, true, none⟩)]⟩]

/-- C3 witness support — a float-typed option with default `2.5`. -/
def c3FloatOpt : ItemOpt :=
  ⟨PyVal.vFloat ⟨25, 1⟩, "h", DataType.dfloat, some 1,
    some (PyVal.vFloat ⟨0, 0⟩, PyVal.vFloat ⟨100, 0⟩), [], false, true, none⟩

/-- C3 witness support — a one-option float schema. -/
def c3FloatDefaults : Defaults := [⟨"s", "h", [("o", c3FloatOpt)]⟩]

/-- C10 support — an entry with its `min_max` metadata replaced. -/
def setMinMaxOpt (mm : Option (PyVal × PyVal)) (e : ItemOpt) : ItemOpt :=
  { default := e.default, helptext := e.helptext, type := e.type, rounding := e.rounding,
    min_max := mm, choices := e.choices, gui_radio := e.gui_radio, fixed := e.fixed,
    group := e.group }

/-- C10 support — replace every schema entry's `min_max` metadata. -/
def setAllMinMax (dflts : Defaults) (mm : Option (PyVal × PyVal)) : Defaults :=
  dflts.map (fun sd => ⟨sd.name, sd.helptext,
    sd.items.map (fun p => (p.1, setMinMaxOpt mm p.2))⟩)

/-- C5/C6 support — an integer entry with the given default. -/
def intOpt (n : Int) : ItemOpt :=
  ⟨PyVal.vInt n, "h", DataType.dint, some 1, some (PyVal.vInt 0, PyVal.vInt 9), [],
    false, true, none⟩

/-- C5 witness support — schema with two options. -/
def c5Dflts : Defaults := [⟨"s", "h", [("miss", intOpt 3), ("keep", intOpt 5)]⟩]

/-- C5 witness support — a drifted stored config: `miss` deleted, `extra`
added, `keep` holding a user-edited value. -/
def c5Cfg : PyConfig := [("s", [("keep", some "7"), ("extra", some "1")])]

/-- C6 witness support — a one-option schema. -/
def c6Dflts : Defaults := [⟨"s", "h", [("o", intOpt 3)]⟩]

/-- C6 witness support — a stored config exactly matching the schema (one
comment key, one option key). -/
def c6Cfg : PyConfig := [("s", [("# H", none), ("o", some "3")])]

/-- C1 witness support — a multi-choice (list) option whose declared choices
are `a` and `c`. -/
def c1Opt : ItemOpt :=
  ⟨PyVal.vList ["a"], "h", DataType.dlist, none, none, ["a", "c"], false, true, none⟩

/-- C1 witness support — a one-section schema holding the list option. -/
def c1Dflts : Defaults := [⟨"sect", "h", [("opt", c1Opt)]⟩]

/-- C1 witness support — a stored config whose list value mixes the valid
tokens `a`, `c` with the invalid token `b`. -/
def c1Cfg : PyConfig := [("sect", [("opt", some "a, b, c")])]

/-- C7 witness support — a single-choice option whose declared choices are
`x` and `y`, with default `x`. -/
def c7Opt : ItemOpt :=
  ⟨PyVal.vStr "x", "h", DataType.dstr, none, none, ["x", "y"], false, true, none⟩

/-- C7 witness support — a one-section schema holding the single-choice
option. -/
def c7Dflts : Defaults := [⟨"sect", "h", [("opt", c7Opt)]⟩]

/-- C7 witness support — a stored value outside the declared choice set. -/
def c7Cfg : PyConfig := [("sect", [("opt", some "z")])]

/-- A successful typed read. -/
def isOkVal : Except String PyVal → Bool
  | .ok _ => true
  | .error _ => false

/-- The keys of a stored section that `config_dict` actually processes — the
comment-prefixed keys (`startswith(("#", "\x5cn"))`) are skipped. -/
def cdKeys (kvs : List (String × Option String)) : List String :=
  (kvs.filter (fun p => !(strStarts p.1 "#" || strStarts p.1 "\n"))).map Prod.fst

/-- Every processed key of one stored section resolves through `get`. -/
def keysReadyB (dflts : Defaults) (cfg : PyConfig) (sctn : String)
    (kvs : List (String × Option String)) : Bool :=
  kvs.all (fun p => (strStarts p.1 "#" || strStarts p.1 "\n") ||
    isOkVal (get dflts cfg sctn p.1))

/-- One processed section is either absent from the stored config or has all
its processed keys resolving through `get`. -/
def sectReadyB (dflts : Defaults) (cfg : PyConfig) (s : String) : Bool :=
  match cfgSection cfg s with
  | none => true
  | some kvs => keysReadyB dflts cfg s kvs

/-- Every section `config_dict` walks is ready. -/
def dictReadyB (dflts : Defaults) (cfg : PyConfig) (sections : List String) : Bool :=
  sections.all (sectReadyB dflts cfg)

/-- C9 witness support — a schema with one global section and one target
section. -/
def c9Dflts : Defaults :=
  [⟨"global", "h", [("gkey", intOpt 3)]⟩, ⟨"tgt", "h", [("tkey", intOpt 5)]⟩]

/-- C9 witness support — the stored config: the option `gkey` lives only in
the `global` section, not in the target section. -/
def c9Cfg : PyConfig :=
  [("global", [("gkey", some "3")]), ("tgt", [("tkey", some "5")])]

-- MORE-DEFS-ANCHOR

/-! ### Lemmas: association-list updates -/

theorem assocFind_cons {B : Type} (p : String × B) (l : List (String × B)) (k : String) :
    assocFind (p :: l) k = if p.1 = k then some p else assocFind l k := by
  by_cases h : p.1 = k
  · rw [if_pos h]
    exact List.find?_cons_of_pos _ (by simp [h])
  · rw [if_neg h]
    exact List.find?_cons_of_neg _ (by simp [h])

theorem assocSet_cons {B : Type} (p : String × B) (l : List (String × B)) (k : String) (v : B) :
    assocSet (p :: l) k v = if p.1 = k then (k, v) :: l else p :: assocSet l k v := by
  by_cases h : p.1 = k <;> simp [assocSet, h]

theorem assocFind_assocSet_self {B : Type} (l : List (String × B)) (k : String) (v : B) :
    assocFind (assocSet l k v) k = some (k, v) := by
  induction l with
  | nil => simp [assocSet, assocFind, List.find?]
  | cons p rest ih =>
    rw [assocSet_cons]
    by_cases h : p.1 = k
    · rw [if_pos h, assocFind_cons]
      simp
    · rw [if_neg h, assocFind_cons, if_neg h]
      exact ih

theorem assocFind_assocSet_ne {B : Type} (l : List (String × B)) (k k' : String) (v : B)
    (h : k' ≠ k) : assocFind (assocSet l k' v) k = assocFind l k := by
  induction l with
  | nil =>
    show assocFind [(k', v)] k = assocFind [] k
    rw [assocFind_cons]
    simp [h]
  | cons p rest ih =>
    rw [assocSet_cons]
    by_cases hp : p.1 = k'
    · rw [if_pos hp, assocFind_cons, assocFind_cons, if_neg (by simp [h]), if_neg (hp ▸ h)]
    · rw [if_neg hp, assocFind_cons, assocFind_cons]
      by_cases hk : p.1 = k
      · rw [if_pos hk, if_pos hk]
      · rw [if_neg hk, if_neg hk, ih]

theorem assocFind_assocSet_keys {B : Type} (l : List (String × B)) (k : String) (v : B)
    (q : String × B) (hq : q ∈ assocSet l k v) : q.1 = k ∨ q.1 ∈ l.map Prod.fst := by
  induction l with
  | nil =>
    simp [assocSet] at hq
    left; rw [hq]
  | cons p rest ih =>
    rw [assocSet_cons] at hq
    by_cases h : p.1 = k
    · rw [if_pos h] at hq
      rcases List.mem_cons.1 hq with h1 | h1
      · left; rw [h1]
      · right
        exact List.mem_map_of_mem Prod.fst (List.mem_cons_of_mem p h1)
    · rw [if_neg h] at hq
      rcases List.mem_cons.1 hq with h1 | h1
      · right; rw [h1]; simp
      · rcases ih h1 with h2 | h2
        · left; exact h2
        · right; simp at h2 ⊢; tauto

theorem assocFind_mem {B : Type} (l : List (String × B)) (k : String) (q : String × B)
    (h : assocFind l k = some q) : q ∈ l ∧ q.1 = k := by
  induction l with
  | nil => simp [assocFind, List.find?] at h
  | cons p rest ih =>
    rw [assocFind_cons] at h
    by_cases hp : p.1 = k
    · rw [if_pos hp] at h
      cases h
      exact ⟨List.mem_cons_self .., hp⟩
    · rw [if_neg hp] at h
      rcases ih h with ⟨h1, h2⟩
      exact ⟨List.mem_cons_of_mem _ h1, h2⟩

/-! ### Lemmas: config updates and reads -/

theorem cfgSet_of_no_section (cfg : PyConfig) (s k : String) (v : Option String)
    (h : cfgSection cfg s = none) : cfgSet cfg s k v = cfg := by
  induction cfg with
  | nil => rfl
  | cons p rest ih =>
    unfold cfgSection at h
    rw [assocFind_cons] at h
    by_cases hp : p.1 = s
    · rw [if_pos hp] at h; simp at h
    · rw [if_neg hp] at h
      cases p with
      | mk name kvs =>
        simp at hp
        simp only [cfgSet]
        rw [if_neg (by simp [hp])]
        rw [ih (by unfold cfgSection; simpa using h)]

theorem cfgSection_cfgSet_ne (cfg : PyConfig) (s s' k : String) (v : Option String)
    (h : s' ≠ s) : cfgSection (cfgSet cfg s' k v) s = cfgSection cfg s := by
  induction cfg with
  | nil => rfl
  | cons p rest ih =>
    cases p with
    | mk name kvs =>
      by_cases hp : name = s'
      · have hns : name ≠ s := by rw [hp]; exact h
        simp only [cfgSet]
        rw [if_pos (by simp [hp])]
        unfold cfgSection
        rw [assocFind_cons, assocFind_cons]
        simp [hns]
      · simp only [cfgSet]
        rw [if_neg (by simp [hp])]
        unfold cfgSection
        rw [assocFind_cons, assocFind_cons]
        by_cases hs : name = s
        · simp [hs]
        · simp only [hs, if_false, if_neg hs]
          simpa [cfgSection] using ih

theorem cfgSection_cfgSet_self (cfg : PyConfig) (s k : String) (v : Option String)
    (kvs : List (String × Option String)) (h : cfgSection cfg s = some kvs) :
    cfgSection (cfgSet cfg s k v) s = some (setKV kvs k v) := by
  induction cfg with
  | nil => simp [cfgSection, assocFind, List.find?] at h
  | cons p rest ih =>
    cases p with
    | mk name kvs' =>
      by_cases hp : name = s
      · unfold cfgSection at h
        rw [assocFind_cons, if_pos hp] at h
        simp at h
        simp only [cfgSet]
        rw [if_pos (by simp [hp])]
        unfold cfgSection
        rw [assocFind_cons, if_pos hp]
        simp [h]
      · unfold cfgSection at h
        rw [assocFind_cons, if_neg hp] at h
        simp only [cfgSet]
        rw [if_neg (by simp [hp])]
        unfold cfgSection
        rw [assocFind_cons, if_neg hp]
        exact ih (by unfold cfgSection; simpa using h)

theorem rawGet_cfgSet_self (cfg : PyConfig) (s k : String) (v : Option String)
    (kvs : List (String × Option String)) (h : cfgSection cfg s = some kvs) :
    rawGet (cfgSet cfg s k v) s k = .ok v := by
  simp [rawGet, cfgSection_cfgSet_self cfg s k v kvs h, setKV, assocFind_assocSet_self]

theorem rawGet_cfgSet_ne (cfg : PyConfig) (s' k' s k : String) (v : Option String)
    (h : s' ≠ s ∨ k' ≠ k) : rawGet (cfgSet cfg s' k' v) s k = rawGet cfg s k := by
  by_cases hs : s' = s
  · subst hs
    rcases h with h | h
    · exact absurd rfl h
    · match hsec : cfgSection cfg s' with
      | none => rw [cfgSet_of_no_section cfg s' k' v hsec]
      | some kvs =>
        simp [rawGet, cfgSection_cfgSet_self cfg s' k' v kvs hsec, hsec, setKV,
              assocFind_assocSet_ne kvs k k' v h]
  · unfold rawGet
    rw [cfgSection_cfgSet_ne cfg s s' k' v hs]

theorem rawGet_ok_section (cfg : PyConfig) (s k : String) (r : Option String)
    (h : rawGet cfg s k = .ok r) : ∃ kvs, cfgSection cfg s = some kvs := by
  unfold rawGet at h
  match hsec : cfgSection cfg s with
  | none => rw [hsec] at h; exact absurd h (by simp)
  | some kvs => exact ⟨kvs, rfl⟩

theorem dictFind_dictSet_self (d : List (String × PyVal)) (k : String) (v : PyVal) :
    dictFind (dictSet d k v) k = some v := by
  unfold dictFind dictSet
  rw [assocFind_assocSet_self]
  rfl

theorem dictFind_dictSet_ne (d : List (String × PyVal)) (k k' : String) (v : PyVal)
    (h : k' ≠ k) : dictFind (dictSet d k' v) k = dictFind d k := by
  unfold dictFind dictSet
  rw [assocFind_assocSet_ne d k k' v h]

/-! ### Lemmas: decimal digit strings round-trip through Python str / int / float -/

theorem digitVal_natToDigitChar (d : Nat) (h : d < 10) :
    digitVal? (natToDigitChar d) = some d := by
  interval_cases d <;> decide

theorem natToDigitChar_not_ws (d : Nat) (h : d < 10) :
    (natToDigitChar d).isWhitespace = false := by
  interval_cases d <;> decide

theorem natToDigitChar_ne_special (d : Nat) (h : d < 10) :
    natToDigitChar d ≠ '-' ∧ natToDigitChar d ≠ '+' ∧ natToDigitChar d ≠ '.' := by
  interval_cases d <;> exact ⟨by decide, by decide, by decide⟩

theorem parseNatCore_append (l1 l2 : List Char) (acc : Nat) :
    parseNatCore (l1 ++ l2) acc =
      match parseNatCore l1 acc with
      | some a => parseNatCore l2 a
      | none => none := by
  induction l1 generalizing acc with
  | nil => simp [parseNatCore]
  | cons c rest ih =>
    simp only [List.cons_append, parseNatCore]
    match digitVal? c with
    | some d => simp [ih]
    | none => simp

theorem natReprAux_mem (fuel n : Nat) (c : Char) (hc : c ∈ natReprAux fuel n) :
    ∃ d, d < 10 ∧ c = natToDigitChar d := by
  induction fuel generalizing n with
  | zero => simp [natReprAux] at hc
  | succ fuel ih =>
    cases n with
    | zero => simp [natReprAux] at hc
    | succ m =>
      simp only [natReprAux, List.mem_append, List.mem_singleton] at hc
      rcases hc with hc | hc
      · exact ih _ hc
      · exact ⟨(m + 1) % 10, Nat.mod_lt _ (by norm_num), hc⟩

theorem natReprAux_ne_nil (fuel n : Nat) (h0 : 0 < n) (hf : n ≤ fuel) :
    natReprAux fuel n ≠ [] := by
  cases fuel with
  | zero => omega
  | succ fuel =>
    cases n with
    | zero => omega
    | succ m => simp [natReprAux]

theorem parseNatCore_natReprAux (fuel : Nat) :
    ∀ n acc, n ≤ fuel →
      parseNatCore (natReprAux fuel n) acc =
        some (acc * 10 ^ (natReprAux fuel n).length + n) := by
  induction fuel with
  | zero =>
    intro n acc h
    have : n = 0 := by omega
    subst this
    simp [natReprAux, parseNatCore]
  | succ fuel ih =>
    intro n acc h
    cases n with
    | zero => simp [natReprAux, parseNatCore]
    | succ m =>
      have hdiv : (m + 1) / 10 ≤ fuel := by omega
      simp only [natReprAux, parseNatCore_append, ih _ acc hdiv]
      have hd : digitVal? (natToDigitChar ((m + 1) % 10)) = some ((m + 1) % 10) :=
        digitVal_natToDigitChar _ (Nat.mod_lt _ (by norm_num))
      simp only [parseNatCore, hd, List.length_append, List.length_singleton]
      congr 1
      have e1 : (acc * 10 ^ (natReprAux fuel ((m + 1) / 10)).length + (m + 1) / 10) * 10
            + (m + 1) % 10
          = acc * (10 ^ (natReprAux fuel ((m + 1) / 10)).length * 10)
            + ((m + 1) / 10 * 10 + (m + 1) % 10) := by ring
      have e2 : (m + 1) / 10 * 10 + (m + 1) % 10 = m + 1 := by omega
      rw [e1, e2, ← pow_succ]

theorem dropWhile_of_forall_not (p : Char → Bool) (l : List Char)
    (h : ∀ c ∈ l, p c = false) : l.dropWhile p = l := by
  cases l with
  | nil => rfl
  | cons a l => simp [List.dropWhile_cons, h a (by simp)]

theorem stripChars_of_no_ws (cs : List Char)
    (h : ∀ c ∈ cs, c.isWhitespace = false) : stripChars cs = cs := by
  unfold stripChars
  rw [dropWhile_of_forall_not _ _ h,
      dropWhile_of_forall_not _ _ (fun c hc => h c (List.mem_reverse.1 hc)),
      List.reverse_reverse]

theorem natRepr_mem (n : Nat) (c : Char) (hc : c ∈ (natRepr n).data) :
    ∃ d, d < 10 ∧ c = natToDigitChar d := by
  unfold natRepr at hc
  by_cases h : n = 0
  · rw [if_pos h] at hc
    refine ⟨0, by norm_num, ?_⟩
    simp only [show ("0" : String).data = ['0'] from rfl, List.mem_singleton] at hc
    rw [hc]; rfl
  · rw [if_neg h] at hc
    exact natReprAux_mem n n c hc

theorem natRepr_not_ws (n : Nat) (c : Char) (hc : c ∈ (natRepr n).data) :
    c.isWhitespace = false := by
  obtain ⟨d, hd, rfl⟩ := natRepr_mem n c hc
  exact natToDigitChar_not_ws d hd

theorem natRepr_ne_nil (n : Nat) : (natRepr n).data ≠ [] := by
  unfold natRepr
  by_cases h : n = 0
  · rw [if_pos h]; simp [show ("0" : String).data = ['0'] from rfl]
  · rw [if_neg h]
    exact natReprAux_ne_nil n n (by omega) le_rfl

theorem parseNatCore_natRepr (n : Nat) : parseNatCore (natRepr n).data 0 = some n := by
  unfold natRepr
  by_cases h : n = 0
  · rw [if_pos h]
    subst h
    decide
  · rw [if_neg h]
    have := parseNatCore_natReprAux n n 0 le_rfl
    simpa using this

theorem pyParseInt_cons (s : String) (c : Char) (rest : List Char)
    (h : stripChars s.data = c :: rest) :
    pyParseInt s =
      (if c = '-' then
        if rest.isEmpty then none else (parseNatCore rest 0).map (fun n => -(n : Int))
      else if c = '+' then
        if rest.isEmpty then none else (parseNatCore rest 0).map (fun n => (n : Int))
      else (parseNatCore (c :: rest) 0).map (fun n => (n : Int))) := by
  unfold pyParseInt
  rw [h]

theorem pyParseInt_intRepr (i : Int) : pyParseInt (intRepr i) = some i := by
  by_cases h : i < 0
  · have hdata : (intRepr i).data = '-' :: (natRepr i.natAbs).data := by
      unfold intRepr
      rw [if_pos h]
      simp [show ("-" : String).data = ['-'] from rfl]
    have hstrip : stripChars (intRepr i).data = '-' :: (natRepr i.natAbs).data := by
      rw [hdata]
      exact stripChars_of_no_ws _ (by
        intro c hc
        rcases List.mem_cons.1 hc with rfl | hc
        · decide
        · exact natRepr_not_ws _ c hc)
    rw [pyParseInt_cons _ _ _ hstrip]
    rw [if_pos rfl]
    rw [if_neg (by simpa [List.isEmpty_iff] using natRepr_ne_nil i.natAbs)]
    rw [parseNatCore_natRepr]
    have hv : -((i.natAbs : Nat) : Int) = i := by omega
    show some (-((i.natAbs : Nat) : Int)) = some i
    rw [hv]
  · have hdata : (intRepr i).data = (natRepr i.natAbs).data := by
      unfold intRepr
      rw [if_neg h]
    match hrepr : (natRepr i.natAbs).data with
    | [] => exact absurd hrepr (natRepr_ne_nil _)
    | c :: rest =>
      have hmem : c ∈ (natRepr i.natAbs).data := by rw [hrepr]; simp
      obtain ⟨d, hd, rfl⟩ := natRepr_mem _ _ hmem
      obtain ⟨h1, h2, _⟩ := natToDigitChar_ne_special d hd
      have hstrip : stripChars (intRepr i).data = natToDigitChar d :: rest := by
        rw [hdata, stripChars_of_no_ws _ (natRepr_not_ws i.natAbs), hrepr]
      rw [pyParseInt_cons _ _ _ hstrip]
      rw [if_neg h1, if_neg h2]
      rw [← hrepr, parseNatCore_natRepr]
      have hv : ((i.natAbs : Nat) : Int) = i := by omega
      show some (((i.natAbs : Nat) : Int)) = some i
      rw [hv]

/-! ### Lemmas: float (exact decimal) round trip -/

theorem isDigitChar_not_ws (c : Char) (h : isDigitChar c) : c.isWhitespace = false := by
  obtain ⟨d, hd, rfl⟩ := h
  exact natToDigitChar_not_ws d hd

theorem isDigitChar_ne_special (c : Char) (h : isDigitChar c) :
    c ≠ '-' ∧ c ≠ '+' ∧ c ≠ '.' := by
  obtain ⟨d, hd, rfl⟩ := h
  exact natToDigitChar_ne_special d hd

theorem isDigitChar_zero : isDigitChar '0' := ⟨0, by norm_num, rfl⟩

theorem natRepr_isDigitChar (n : Nat) (c : Char) (hc : c ∈ (natRepr n).data) :
    isDigitChar c := natRepr_mem n c hc

theorem padZeros_isDigitChar (e : Nat) (n : Nat) (c : Char)
    (hc : c ∈ padZeros e (natDigits n)) : isDigitChar c := by
  unfold padZeros at hc
  rcases List.mem_append.1 hc with hc | hc
  · rw [List.eq_of_mem_replicate hc]
    exact isDigitChar_zero
  · exact natReprAux_mem n n c hc

theorem decValue_decNormalizeAux (e : Nat) :
    ∀ m, decValue (decNormalizeAux m e) = decValue ⟨m, e⟩ := by
  induction e with
  | zero => intro m; rfl
  | succ e ih =>
    intro m
    unfold decNormalizeAux
    by_cases hm : m % 10 = 0
    · rw [if_pos hm]
      obtain ⟨k, hk⟩ := Int.dvd_of_emod_eq_zero hm
      have hdiv : m / 10 = k := by rw [hk]; exact Int.mul_ediv_cancel_left k (by norm_num)
      rw [hdiv, ih k]
      subst hk
      unfold decValue
      push_cast
      rw [pow_succ]
      have h10 : ((10 : Rat) ^ e) ≠ 0 := by positivity
      field_simp
      ring
    · rw [if_neg hm]

theorem decValue_decNormalize (d : Dec) : decValue (decNormalize d) = decValue d := by
  unfold decNormalize
  exact decValue_decNormalizeAux d.exp d.mant

theorem splitOnCharList_ne_nil (sep : Char) (l : List Char) : splitOnCharList sep l ≠ [] := by
  cases l with
  | nil => simp [splitOnCharList]
  | cons c rest =>
    unfold splitOnCharList
    by_cases h : c = sep
    · simp [h]
    · rw [show (c == sep) = false by simp [h]]
      simp only [Bool.false_eq_true, if_false]
      cases hsplit : splitOnCharList sep rest <;> simp [splitConsHead]

theorem splitOn_no_sep (sep : Char) (l : List Char) (h : ∀ c ∈ l, c ≠ sep) :
    splitOnCharList sep l = [l] := by
  induction l with
  | nil => rfl
  | cons c rest ih =>
    unfold splitOnCharList
    rw [show (c == sep) = false by simp [h c (by simp)]]
    simp only [Bool.false_eq_true, if_false]
    rw [ih (fun c hc => h c (List.mem_cons_of_mem _ hc))]
    rfl

theorem splitOn_append_sep (sep : Char) (l1 l2 : List Char) (h : ∀ c ∈ l1, c ≠ sep) :
    splitOnCharList sep (l1 ++ sep :: l2) = l1 :: splitOnCharList sep l2 := by
  induction l1 with
  | nil => simp [splitOnCharList]
  | cons c rest ih =>
    simp only [List.cons_append]
    rw [splitOnCharList]
    rw [show (c == sep) = false by simp [h c (by simp)]]
    simp only [Bool.false_eq_true, if_false]
    rw [ih (fun c hc => h c (List.mem_cons_of_mem _ hc))]
    rfl

theorem data_mk (l : List Char) : (⟨l⟩ : String).data = l := rfl

theorem parseNatCore_replicate_zeros (j : Nat) (ds : List Char) :
    parseNatCore (List.replicate j '0' ++ ds) 0 = parseNatCore ds 0 := by
  induction j with
  | zero => simp
  | succ j ih =>
    simp only [List.replicate_succ, List.cons_append, parseNatCore]
    rw [show digitVal? '0' = some 0 from rfl]
    simpa using ih

theorem parseNatCore_natDigits (n : Nat) : parseNatCore (natDigits n) 0 = some n := by
  unfold natDigits
  simpa using parseNatCore_natReprAux n n 0 le_rfl

theorem parseNatCore_padZeros (e n : Nat) :
    parseNatCore (padZeros e (natDigits n)) 0 = some n := by
  unfold padZeros
  rw [parseNatCore_replicate_zeros, parseNatCore_natDigits]

theorem natReprAux_length_le (fuel : Nat) :
    ∀ n e, n ≤ fuel → n < 10 ^ e → (natReprAux fuel n).length ≤ e := by
  induction fuel with
  | zero =>
    intro n e h _
    have : n = 0 := by omega
    subst this
    simp [natReprAux]
  | succ fuel ih =>
    intro n e h hb
    cases n with
    | zero => simp [natReprAux]
    | succ m =>
      cases e with
      | zero => simp at hb
      | succ e =>
        simp only [natReprAux, List.length_append, List.length_singleton]
        have hdiv : (m + 1) / 10 ≤ fuel := by omega
        have hlt : (m + 1) / 10 < 10 ^ e := by
          rw [Nat.div_lt_iff_lt_mul (by norm_num : 0 < 10)]
          calc m + 1 < 10 ^ (e + 1) := hb
          _ = 10 ^ e * 10 := by rw [pow_succ]
        have := ih _ _ hdiv hlt
        omega

theorem padZeros_length (e n : Nat) (h : n < 10 ^ e) :
    (padZeros e (natDigits n)).length = e := by
  unfold padZeros natDigits
  have := natReprAux_length_le n n e le_rfl h
  simp [List.length_replicate]
  omega

theorem parseDecCore_split (ds fs : List Char) (a b : Nat)
    (hds : ∀ c ∈ ds, isDigitChar c) (hfs : ∀ c ∈ fs, isDigitChar c)
    (hdsne : ds ≠ [])
    (ha : parseNatCore ds 0 = some a) (hb : parseNatCore fs 0 = some b) :
    parseDecCore (ds ++ '.' :: fs) = some ⟨(a : Int) * (10 : Int) ^ fs.length + (b : Int), fs.length⟩ := by
  have hsplit : splitOnCharList '.' (ds ++ '.' :: fs) = [ds, fs] := by
    rw [splitOn_append_sep '.' ds fs (fun c hc => (isDigitChar_ne_special c (hds c hc)).2.2),
        splitOn_no_sep '.' fs (fun c hc => (isDigitChar_ne_special c (hfs c hc)).2.2)]
  unfold parseDecCore
  rw [hsplit]
  show (if ds.isEmpty && fs.isEmpty then none
        else match parseNatCore ds 0, parseNatCore fs 0 with
          | some a, some b => some (Dec.mk ((a : Int) * (10 : Int) ^ fs.length + (b : Int)) fs.length)
          | _, _ => none)
      = some (Dec.mk ((a : Int) * (10 : Int) ^ fs.length + (b : Int)) fs.length)
  rw [show ds.isEmpty = false by simpa [List.isEmpty_iff] using hdsne]
  simp only [Bool.false_and, Bool.false_eq_true, if_false]
  rw [ha, hb]

/-- Dispatch `pyParseDec` on a known stripped character list. -/
theorem pyParseDec_cons (s : String) (c : Char) (rest : List Char)
    (h : stripChars s.data = c :: rest) :
    pyParseDec s =
      (if c = '-' then (parseDecCore rest).map (fun d => ⟨-d.mant, d.exp⟩)
      else if c = '+' then parseDecCore rest
      else parseDecCore (c :: rest)) := by
  unfold pyParseDec
  rw [h]

theorem pyParseDec_unsigned (s : String) (a : Nat) (fs : List Char) (b : Nat)
    (hdata : s.data = (natRepr a).data ++ '.' :: fs)
    (hfs : ∀ c ∈ fs, isDigitChar c)
    (hb : parseNatCore fs 0 = some b) :
    pyParseDec s = some ⟨(a : Int) * (10 : Int) ^ fs.length + (b : Int), fs.length⟩ := by
  have hall : ∀ c ∈ s.data, c.isWhitespace = false := by
    intro c hc
    rw [hdata] at hc
    rcases List.mem_append.1 hc with hc | hc
    · exact natRepr_not_ws a c hc
    · rcases List.mem_cons.1 hc with rfl | hc
      · decide
      · exact isDigitChar_not_ws c (hfs c hc)
  have hstrip : stripChars s.data = (natRepr a).data ++ '.' :: fs := by
    rw [stripChars_of_no_ws _ hall, hdata]
  match hrepr : (natRepr a).data with
  | [] => exact absurd hrepr (natRepr_ne_nil _)
  | c :: rest =>
    have hmem : c ∈ (natRepr a).data := by rw [hrepr]; simp
    obtain ⟨h1, h2, _⟩ := isDigitChar_ne_special c (natRepr_isDigitChar a c hmem)
    rw [pyParseDec_cons s c (rest ++ '.' :: fs) (by rw [hstrip, hrepr]; simp)]
    rw [if_neg h1, if_neg h2]
    have : c :: (rest ++ '.' :: fs) = (natRepr a).data ++ '.' :: fs := by rw [hrepr]; simp
    rw [this]
    exact parseDecCore_split _ _ a b (natRepr_isDigitChar a) hfs
      (by rw [hrepr]; simp) (parseNatCore_natRepr a) hb

theorem pyParseDec_signed (s : String) (a : Nat) (fs : List Char) (b : Nat)
    (hdata : s.data = '-' :: ((natRepr a).data ++ '.' :: fs))
    (hfs : ∀ c ∈ fs, isDigitChar c)
    (hb : parseNatCore fs 0 = some b) :
    pyParseDec s = some ⟨-((a : Int) * (10 : Int) ^ fs.length + (b : Int)), fs.length⟩ := by
  have hall : ∀ c ∈ s.data, c.isWhitespace = false := by
    intro c hc
    rw [hdata] at hc
    rcases List.mem_cons.1 hc with rfl | hc
    · decide
    · rcases List.mem_append.1 hc with hc | hc
      · exact natRepr_not_ws a c hc
      · rcases List.mem_cons.1 hc with rfl | hc
        · decide
        · exact isDigitChar_not_ws c (hfs c hc)
  have hstrip : stripChars s.data = '-' :: ((natRepr a).data ++ '.' :: fs) := by
    rw [stripChars_of_no_ws _ hall, hdata]
  rw [pyParseDec_cons s '-' _ hstrip, if_pos rfl]
  rw [parseDecCore_split _ _ a b (natRepr_isDigitChar a) hfs
      (natRepr_ne_nil a) (parseNatCore_natRepr a) hb]
  rfl

/-- Core of the float round trip, for an arbitrary mantissa/exponent pair. -/
theorem pyParseDec_decReprPlain (m : Int) (e : Nat) :
    ∃ d', pyParseDec (decReprPlain m e) = some d' ∧ decValue d' = decValue ⟨m, e⟩ := by
  by_cases hexp : e = 0
  · subst hexp
    by_cases hm : m < 0
    · refine ⟨⟨-((m.natAbs : Int) * 10 + 0), 1⟩, ?_, ?_⟩
      · have hdata : (decReprPlain m 0).data = '-' :: ((natRepr m.natAbs).data ++ '.' :: ['0']) := by
          have e1 : decReprPlain m 0 = "-" ++ natRepr m.natAbs ++ ".0" := by
            simp [decReprPlain, hm]
          rw [e1, String.data_append, String.data_append]
          simp [show ("-" : String).data = ['-'] from rfl,
                show (".0" : String).data = ['.', '0'] from rfl]
        have := pyParseDec_signed (decReprPlain m 0) m.natAbs ['0'] 0 hdata
          (by intro c hc; simp at hc; rw [hc]; exact isDigitChar_zero) (by decide)
        simpa using this
      · simp only [decValue]
        have h1 : -((m.natAbs : Int) * 10 + 0) = m * 10 := by omega
        rw [h1]
        push_cast
        field_simp
    · refine ⟨⟨(m.natAbs : Int) * 10 + 0, 1⟩, ?_, ?_⟩
      · have hdata : (decReprPlain m 0).data = (natRepr m.natAbs).data ++ '.' :: ['0'] := by
          have e1 : decReprPlain m 0 = "" ++ natRepr m.natAbs ++ ".0" := by
            simp [decReprPlain, hm]
          rw [e1, String.data_append, String.data_append]
          simp [show ("" : String).data = [] from rfl,
                show (".0" : String).data = ['.', '0'] from rfl]
        have := pyParseDec_unsigned (decReprPlain m 0) m.natAbs ['0'] 0 hdata
          (by intro c hc; simp at hc; rw [hc]; exact isDigitChar_zero) (by decide)
        simpa using this
      · simp only [decValue]
        have h1 : ((m.natAbs : Int) * 10 + 0) = m * 10 := by omega
        rw [h1]
        push_cast
        field_simp
  · have hmod : m.natAbs % 10 ^ e < 10 ^ e := Nat.mod_lt _ (by positivity)
    have hlen : (padZeros e (natDigits (m.natAbs % 10 ^ e))).length = e :=
      padZeros_length _ _ hmod
    have hrecon : ((m.natAbs / 10 ^ e : Nat) : Int) * (10 : Int) ^ e
          + ((m.natAbs % 10 ^ e : Nat) : Int) = (m.natAbs : Int) := by
      have h2 : (10 : Int) ^ e * ((m.natAbs / 10 ^ e : Nat) : Int)
            + ((m.natAbs % 10 ^ e : Nat) : Int) = (m.natAbs : Int) := by
        exact_mod_cast Nat.div_add_mod m.natAbs (10 ^ e)
      linear_combination h2
    by_cases hm : m < 0
    · refine ⟨⟨-(((m.natAbs / 10 ^ e : Nat) : Int) * (10 : Int) ^
          (padZeros e (natDigits (m.natAbs % 10 ^ e))).length
          + ((m.natAbs % 10 ^ e : Nat) : Int)),
          (padZeros e (natDigits (m.natAbs % 10 ^ e))).length⟩, ?_, ?_⟩
      · have e1 : decReprPlain m e = "-" ++ natRepr (m.natAbs / 10 ^ e) ++ "." ++
            (⟨padZeros e (natDigits (m.natAbs % 10 ^ e))⟩ : String) := by
          simp only [decReprPlain, if_neg hexp, if_pos hm]
        have hdata : (decReprPlain m e).data = '-' :: ((natRepr (m.natAbs / 10 ^ e)).data
            ++ '.' :: padZeros e (natDigits (m.natAbs % 10 ^ e))) := by
          rw [e1, String.data_append, String.data_append, String.data_append, data_mk]
          simp [show ("-" : String).data = ['-'] from rfl,
                show ("." : String).data = ['.'] from rfl]
        exact pyParseDec_signed _ _ _ _ hdata (padZeros_isDigitChar _ _)
          (parseNatCore_padZeros _ _)
      · simp only [decValue, hlen, hrecon]
        have h1 : -((m.natAbs : Int)) = m := by omega
        rw [h1]
    · refine ⟨⟨((m.natAbs / 10 ^ e : Nat) : Int) * (10 : Int) ^
          (padZeros e (natDigits (m.natAbs % 10 ^ e))).length
          + ((m.natAbs % 10 ^ e : Nat) : Int),
          (padZeros e (natDigits (m.natAbs % 10 ^ e))).length⟩, ?_, ?_⟩
      · have e1 : decReprPlain m e = "" ++ natRepr (m.natAbs / 10 ^ e) ++ "." ++
            (⟨padZeros e (natDigits (m.natAbs % 10 ^ e))⟩ : String) := by
          simp only [decReprPlain, if_neg hexp, if_neg hm]
        have hdata : (decReprPlain m e).data = (natRepr (m.natAbs / 10 ^ e)).data
            ++ '.' :: padZeros e (natDigits (m.natAbs % 10 ^ e)) := by
          rw [e1, String.data_append, String.data_append, String.data_append, data_mk]
          simp [show ("" : String).data = [] from rfl,
                show ("." : String).data = ['.'] from rfl]
        exact pyParseDec_unsigned _ _ _ _ hdata (padZeros_isDigitChar _ _)
          (parseNatCore_padZeros _ _)
      · simp only [decValue, hlen, hrecon]
        have h1 : ((m.natAbs : Int)) = m := by omega
        rw [h1]

/-- Round trip for the float model: parsing the printed decimal yields a value
numerically equal to the original (`float(str(x)) == x`). -/
theorem pyParseDec_decRepr (d : Dec) :
    ∃ d', pyParseDec (decRepr d) = some d' ∧ decValue d' = decValue d := by
  obtain ⟨d', h1, h2⟩ := pyParseDec_decReprPlain (decNormalize d).mant (decNormalize d).exp
  refine ⟨d', h1, ?_⟩
  rw [h2]
  have : (⟨(decNormalize d).mant, (decNormalize d).exp⟩ : Dec) = decNormalize d := rfl
  rw [this]
  exact decValue_decNormalize d

/-! ### Lemmas: shapes of generated comment keys -/

theorem strStarts_pyUpper_hash (t : String) : strStarts (pyUpper ("# " ++ t)) "# " = true := by
  have h : (pyUpper ("# " ++ t)).data = '#' :: ' ' :: (t.data.map Char.toUpper) := by
    unfold pyUpper
    rw [data_mk, String.data_append, List.map_append]
    rfl
  unfold strStarts
  rw [h]
  rfl

theorem strStarts_newline_append (t : String) : strStarts ("\n" ++ t) "\n" = true := by
  unfold strStarts
  rw [String.data_append]
  rfl

/-- A section help comment always starts with `"# "`. -/
theorem format_help_section_starts (s : String) :
    strStarts (format_help s true) "# " = true := by
  unfold format_help
  exact strStarts_pyUpper_hash _

/-- An item help comment always starts with a newline. -/
theorem format_help_item_starts (s : String) :
    strStarts (format_help s false) "\n" = true := by
  unfold format_help
  exact strStarts_newline_append _

theorem listStarts_shorten (a : Char) (p l : List Char) (h : listStarts (a :: p) l = true) :
    listStarts [a] l = true := by
  cases l with
  | nil => simp [listStarts] at h
  | cons b bs =>
    simp only [listStarts, Bool.and_eq_true] at h ⊢
    exact ⟨h.1, trivial⟩

theorem format_help_section_starts_hash (s : String) :
    strStarts (format_help s true) "#" = true := by
  have := format_help_section_starts s
  unfold strStarts at this ⊢
  exact listStarts_shorten '#' [' '] _ (by simpa using this)

/-- An item title that is not comment-shaped differs from every generated
comment key. -/
theorem title_ne_section_comment (t s : String) (ht : strStarts t "#" = false) :
    t ≠ format_help s true := by
  intro h
  rw [h] at ht
  rw [format_help_section_starts_hash s] at ht
  simp at ht

theorem title_ne_item_comment (t s : String) (ht : strStarts t "\n" = false) :
    t ≠ format_help s false := by
  intro h
  rw [h] at ht
  rw [format_help_item_starts s] at ht
  simp at ht

/-! ### Lemmas: looking up items in a schema-generated config -/

theorem assocFind_append_right {B : Type} (l : List (String × B)) (k : String) (v : B)
    (h : k ∉ l.map Prod.fst) : assocFind (l ++ [(k, v)]) k = some (k, v) := by
  induction l with
  | nil => simp [assocFind, List.find?]
  | cons p rest ih =>
    rw [List.cons_append, assocFind_cons]
    rw [if_neg (by simp at h; exact fun hc => h.1 hc.symm)]
    exact ih (by simp at h ⊢; exact h.2)

theorem assocFind_append_ne {B : Type} (l : List (String × B)) (k k' : String) (v : B)
    (h : k' ≠ k) : assocFind (l ++ [(k', v)]) k = assocFind l k := by
  induction l with
  | nil =>
    show assocFind [(k', v)] k = assocFind [] k
    rw [assocFind_cons]
    simp [h]
  | cons p rest ih =>
    rw [List.cons_append, assocFind_cons, assocFind_cons]
    by_cases hp : p.1 = k
    · rw [if_pos hp, if_pos hp]
    · rw [if_neg hp, if_neg hp, ih]

theorem assocSet_keys_sub' {B : Type} (l : List (String × B)) (k : String) (v : B)
    (x : String) (hx : x ∈ (assocSet l k v).map Prod.fst) : x = k ∨ x ∈ l.map Prod.fst := by
  obtain ⟨q, hq, rfl⟩ := List.mem_map.1 hx
  exact assocFind_assocSet_keys l k v q hq

theorem buildKVs_keys_sub (sname : String) (f : String → String → ItemOpt → PyVal)
    (items : List (String × ItemOpt)) :
    ∀ kvs x, x ∈ (buildKVs sname f kvs items).map Prod.fst →
      x ∈ kvs.map Prod.fst ∨ strStarts x "\n" = true ∨ x ∈ items.map Prod.fst := by
  induction items with
  | nil => intro kvs x hx; exact Or.inl hx
  | cons p rest ih =>
    intro kvs x hx
    rcases ih _ x hx with hx1 | hx1 | hx1
    · rcases assocSet_keys_sub' _ _ _ _ (by simpa [setKV] using hx1) with h1 | h1
      · right; right; simp [h1]
      · rcases assocSet_keys_sub' _ _ _ _ (by simpa [setKV] using h1) with h2 | h2
        · right; left
          rw [h2]
          exact format_help_item_starts _
        · left; exact h2
    · right; left; exact hx1
    · right; right; simp [hx1]

theorem assocFind_buildKVs_other (sname : String) (f : String → String → ItemOpt → PyVal)
    (items : List (String × ItemOpt)) (key : String)
    (hkey : strStarts key "\n" = false) (hne : ∀ p ∈ items, p.1 ≠ key) :
    ∀ kvs, assocFind (buildKVs sname f kvs items) key = assocFind kvs key := by
  induction items with
  | nil => intro kvs; rfl
  | cons p rest ih =>
    intro kvs
    unfold buildKVs
    rw [ih (fun q hq => hne q (List.mem_cons_of_mem _ hq))]
    unfold setKV
    rw [assocFind_assocSet_ne _ _ _ _ (hne p (List.mem_cons_self ..))]
    rw [assocFind_assocSet_ne _ _ _ _ (Ne.symm (title_ne_item_comment key p.2.helptext hkey))]

theorem assocFind_buildKVs_item (sname : String) (f : String → String → ItemOpt → PyVal)
    (items : List (String × ItemOpt)) (item : String) (opt : ItemOpt)
    (hmem : (item, opt) ∈ items)
    (hnodup : (items.map Prod.fst).Nodup)
    (hitem : strStarts item "\n" = false) :
    ∀ kvs, assocFind (buildKVs sname f kvs items) item
      = some (item, some (pyStr (f sname item opt))) := by
  induction items with
  | nil => simp at hmem
  | cons p rest ih =>
    intro kvs
    rcases List.mem_cons.1 hmem with heq | hmem'
    · subst heq
      unfold buildKVs
      have hrest : ∀ q ∈ rest, q.1 ≠ item := by
        intro q hq
        simp only [List.map_cons, List.nodup_cons] at hnodup
        intro hc
        exact hnodup.1 (hc ▸ List.mem_map_of_mem Prod.fst hq)
      rw [assocFind_buildKVs_other sname f rest item hitem hrest]
      unfold setKV
      exact assocFind_assocSet_self _ _ _
    · unfold buildKVs
      exact ih hmem' (by simp only [List.map_cons, List.nodup_cons] at hnodup; exact hnodup.2) _

/-! ### Lemmas: `build_config` section structure -/

theorem cfgSet_map_fst (cfg : PyConfig) (s k : String) (v : Option String) :
    (cfgSet cfg s k v).map Prod.fst = cfg.map Prod.fst := by
  induction cfg with
  | nil => rfl
  | cons p rest ih =>
    cases p with
    | mk name kvs =>
      by_cases h : name = s
      · simp [cfgSet, h]
      · simp only [cfgSet]
        rw [if_neg (by simp [h])]
        simp [ih]

theorem insert_config_item_map_fst (cfg : PyConfig) (s i : String) (v : PyVal) (o : ItemOpt) :
    (insert_config_item cfg s i v o).map Prod.fst = cfg.map Prod.fst := by
  unfold insert_config_item
  rw [cfgSet_map_fst, cfgSet_map_fst]

theorem build_items_map_fst (sname : String) (f : String → String → ItemOpt → PyVal)
    (items : List (String × ItemOpt)) :
    ∀ cfg, (build_items sname f cfg items).map Prod.fst = cfg.map Prod.fst := by
  induction items with
  | nil => intro cfg; rfl
  | cons p rest ih =>
    intro cfg
    unfold build_items
    rw [ih, insert_config_item_map_fst]

theorem insert_config_section_map_fst (cfg : PyConfig) (s h : String) :
    (insert_config_section cfg s h).map Prod.fst = cfg.map Prod.fst ++ [s] := by
  unfold insert_config_section
  rw [cfgSet_map_fst]
  simp

theorem build_config_map_fst (f : String → String → ItemOpt → PyVal) (dflts : Defaults) :
    ∀ cfg, (build_config f cfg dflts).map Prod.fst
      = cfg.map Prod.fst ++ dflts.map SectionDefaults.name := by
  induction dflts with
  | nil => intro cfg; simp [build_config]
  | cons sd rest ih =>
    intro cfg
    unfold build_config
    rw [ih, build_items_map_fst, insert_config_section_map_fst]
    simp

theorem cfgSection_build_items_ne (sname : String) (f : String → String → ItemOpt → PyVal)
    (items : List (String × ItemOpt)) (s : String) (h : s ≠ sname) :
    ∀ cfg, cfgSection (build_items sname f cfg items) s = cfgSection cfg s := by
  induction items with
  | nil => intro cfg; rfl
  | cons p rest ih =>
    intro cfg
    unfold build_items
    rw [ih]
    unfold insert_config_item
    rw [cfgSection_cfgSet_ne _ _ _ _ _ (Ne.symm h), cfgSection_cfgSet_ne _ _ _ _ _ (Ne.symm h)]

theorem cfgSection_append_section (cfg : PyConfig) (s s' : String)
    (kvs : List (String × Option String)) (h : s' ≠ s) :
    cfgSection (cfg ++ [(s', kvs)]) s = cfgSection cfg s := by
  unfold cfgSection
  rw [assocFind_append_ne cfg s s' kvs h]

theorem cfgSection_insert_section_ne (cfg : PyConfig) (s s' h' : String) (h : s' ≠ s) :
    cfgSection (insert_config_section cfg s' h') s = cfgSection cfg s := by
  unfold insert_config_section
  rw [cfgSection_cfgSet_ne _ _ _ _ _ h, cfgSection_append_section _ _ _ _ h]

theorem cfgSection_build_config_ne (f : String → String → ItemOpt → PyVal) (dflts : Defaults)
    (s : String) (h : s ∉ dflts.map SectionDefaults.name) :
    ∀ cfg, cfgSection (build_config f cfg dflts) s = cfgSection cfg s := by
  induction dflts with
  | nil => intro cfg; rfl
  | cons sd rest ih =>
    intro cfg
    unfold build_config
    have hs : s ≠ sd.name := by simp at h; exact h.1
    have hr : s ∉ rest.map SectionDefaults.name := by simp at h ⊢; exact h.2
    rw [ih hr, cfgSection_build_items_ne _ _ _ _ hs,
        cfgSection_insert_section_ne _ _ _ _ (Ne.symm hs)]

theorem cfgSection_build_items_self (sname : String) (f : String → String → ItemOpt → PyVal)
    (items : List (String × ItemOpt)) :
    ∀ cfg kvs0, cfgSection cfg sname = some kvs0 →
      cfgSection (build_items sname f cfg items) sname = some (buildKVs sname f kvs0 items) := by
  induction items with
  | nil => intro cfg kvs0 h; exact h
  | cons p rest ih =>
    intro cfg kvs0 h
    unfold build_items buildKVs
    apply ih
    unfold insert_config_item
    rw [cfgSection_cfgSet_self _ _ _ _ _ (cfgSection_cfgSet_self _ _ _ _ _ h)]

/-- The generated config resolves each schema section to its generated
key/value pairs: the section comment first, then the items interleaved with
their comments (values chosen by `f`). -/
theorem cfgSection_build_config (f : String → String → ItemOpt → PyVal) (dflts : Defaults)
    (hnodup : (dflts.map SectionDefaults.name).Nodup) (sd : SectionDefaults)
    (hmem : sd ∈ dflts) :
    ∀ cfg, sd.name ∉ cfg.map Prod.fst →
      cfgSection (build_config f cfg dflts) sd.name
        = some (buildKVs sd.name f [(format_help sd.helptext true, none)] sd.items) := by
  induction dflts with
  | nil => simp at hmem
  | cons sd0 rest ih =>
    intro cfg hcfg
    rcases List.mem_cons.1 hmem with heq | hmem'
    · subst heq
      unfold build_config
      have hnr : sd.name ∉ rest.map SectionDefaults.name := by
        simp only [List.map_cons, List.nodup_cons] at hnodup
        exact hnodup.1
      rw [cfgSection_build_config_ne f rest sd.name hnr]
      apply cfgSection_build_items_self
      unfold insert_config_section
      have happ : cfgSection (cfg ++ [(sd.name, [])]) sd.name = some [] := by
        unfold cfgSection
        rw [assocFind_append_right cfg sd.name [] hcfg]
        rfl
      rw [cfgSection_cfgSet_self _ _ _ _ _ happ]
      rfl
    · unfold build_config
      have hnodup' : (rest.map SectionDefaults.name).Nodup := by
        simp only [List.map_cons, List.nodup_cons] at hnodup
        exact hnodup.2
      have hname : sd.name ≠ sd0.name := by
        simp only [List.map_cons, List.nodup_cons] at hnodup
        intro hc
        exact hnodup.1 (hc ▸ List.mem_map_of_mem SectionDefaults.name hmem')
      apply ih hnodup' hmem'
      rw [build_items_map_fst, insert_config_section_map_fst]
      simp only [List.mem_append, List.mem_singleton]
      rintro (hc | hc)
      · exact hcfg hc
      · exact hname hc

/-! ### Lemmas: reads from generated configs and the schema -/

theorem rawGet_of_cfgSection (cfg : PyConfig) (s k : String)
    (kvs : List (String × Option String)) (h : cfgSection cfg s = some kvs) :
    rawGet cfg s k =
      (match assocFind kvs k with
      | none => .error "NoOptionError"
      | some p => .ok p.2) := by
  unfold rawGet
  rw [h]

/-- Reading a schema item back from a generated config returns the serialised
value chosen for it. -/
theorem rawGet_build_config_item (f : String → String → ItemOpt → PyVal) (dflts : Defaults)
    (hnodup : (dflts.map SectionDefaults.name).Nodup) (sd : SectionDefaults)
    (hsd : sd ∈ dflts) (item : String) (opt : ItemOpt) (hmem : (item, opt) ∈ sd.items)
    (hnodupi : (sd.items.map Prod.fst).Nodup) (hitem : strStarts item "\n" = false) :
    rawGet (build_config f [] dflts) sd.name item = .ok (some (pyStr (f sd.name item opt))) := by
  rw [rawGet_of_cfgSection _ _ _ _ (cfgSection_build_config f dflts hnodup sd hsd [] (by simp))]
  rw [assocFind_buildKVs_item sd.name f sd.items item opt hmem hnodupi hitem]

/-- A key that is neither a comment nor a schema title of its section is not
present in the generated config. -/
theorem rawGet_build_config_extraneous (f : String → String → ItemOpt → PyVal)
    (dflts : Defaults) (hnodup : (dflts.map SectionDefaults.name).Nodup)
    (sd : SectionDefaults) (hsd : sd ∈ dflts) (k : String)
    (hk1 : strStarts k "#" = false) (hk2 : strStarts k "\n" = false)
    (hk3 : k ∉ sd.items.map Prod.fst) :
    rawGet (build_config f [] dflts) sd.name k = .error "NoOptionError" := by
  rw [rawGet_of_cfgSection _ _ _ _ (cfgSection_build_config f dflts hnodup sd hsd [] (by simp))]
  have hfind : assocFind (buildKVs sd.name f [(format_help sd.helptext true, none)] sd.items) k
      = none := by
    rw [assocFind_buildKVs_other sd.name f sd.items k hk2
        (fun p hp hc => hk3 (hc ▸ List.mem_map_of_mem Prod.fst hp))]
    rw [assocFind_cons]
    rw [if_neg (Ne.symm (title_ne_section_comment k sd.helptext hk1))]
    rfl
  rw [hfind]

theorem lookupSection_of_mem (dflts : Defaults)
    (hnodup : (dflts.map SectionDefaults.name).Nodup) (sd : SectionDefaults)
    (hsd : sd ∈ dflts) : lookupSection dflts sd.name = some sd := by
  induction dflts with
  | nil => simp at hsd
  | cons sd0 rest ih =>
    rcases List.mem_cons.1 hsd with heq | hmem
    · subst heq
      unfold lookupSection
      exact List.find?_cons_of_pos _ (by simp)
    · have hne : sd0.name ≠ sd.name := by
        simp only [List.map_cons, List.nodup_cons] at hnodup
        intro hc
        exact hnodup.1 (hc ▸ List.mem_map_of_mem SectionDefaults.name hmem)
      unfold lookupSection
      rw [List.find?_cons_of_neg _ (by simp [hne])]
      exact ih (by simp only [List.map_cons, List.nodup_cons] at hnodup; exact hnodup.2) hmem

theorem assocFind_of_mem {B : Type} (l : List (String × B)) (k : String) (v : B)
    (hmem : (k, v) ∈ l) (hnodup : (l.map Prod.fst).Nodup) : assocFind l k = some (k, v) := by
  induction l with
  | nil => simp at hmem
  | cons p rest ih =>
    rcases List.mem_cons.1 hmem with heq | hmem'
    · rw [← heq, assocFind_cons, if_pos rfl]
    · have hne : p.1 ≠ k := by
        simp only [List.map_cons, List.nodup_cons] at hnodup
        intro hc
        exact hnodup.1 (hc ▸ List.mem_map_of_mem Prod.fst hmem')
      rw [assocFind_cons, if_neg hne]
      exact ih hmem' (by simp only [List.map_cons, List.nodup_cons] at hnodup; exact hnodup.2)

theorem lookupItem_of_mem (dflts : Defaults)
    (hnodup : (dflts.map SectionDefaults.name).Nodup) (sd : SectionDefaults)
    (hsd : sd ∈ dflts) (item : String) (opt : ItemOpt) (hmem : (item, opt) ∈ sd.items)
    (hnodupi : (sd.items.map Prod.fst).Nodup) :
    lookupItem dflts sd.name item = some opt := by
  unfold lookupItem
  rw [lookupSection_of_mem dflts hnodup sd hsd]
  show Option.map (fun p => p.2) (assocFind sd.items item) = some opt
  rw [assocFind_of_mem sd.items item opt hmem hnodupi]
  rfl

/-- Unpack the decidable schema well-formedness predicate. -/
theorem wfDefaultsB_spec (dflts : Defaults) (h : wfDefaultsB dflts = true) :
    (dflts.map SectionDefaults.name).Nodup ∧
    ∀ sd ∈ dflts, (sd.items.map Prod.fst).Nodup ∧
      ∀ p ∈ sd.items, strStarts p.1 "#" = false ∧ strStarts p.1 "\n" = false := by
  unfold wfDefaultsB at h
  simp only [Bool.and_eq_true, List.all_eq_true, decide_eq_true_eq] at h
  refine ⟨h.1, fun sd hsd => ⟨(h.2 sd hsd).1, fun p hp => ?_⟩⟩
  have := (h.2 sd hsd).2 p hp
  simp only [Bool.not_eq_true', Bool.or_eq_false_iff] at this
  exact this

/-- `create_default` and `add_new_config_items` are the two instantiations of
the shared building loop. -/
theorem create_default_eq (dflts : Defaults) :
    create_default dflts = build_config (fun _ _ opt => opt.default) [] dflts := rfl

theorem add_new_config_items_eq (cfg : PyConfig) (dflts : Defaults) :
    add_new_config_items cfg dflts = build_config (carry_value cfg) [] dflts := rfl

/-- `self.config[section].get(item, default)` falls back to the schema default
whenever the config does not hold a value for the key. -/
theorem carry_value_of_not_stored (cfg : PyConfig) (sname item : String) (opt : ItemOpt)
    (h : ∀ v, rawGet cfg sname item ≠ .ok v) :
    carry_value cfg sname item opt = opt.default := by
  unfold carry_value
  cases hsec : cfgSection cfg sname with
  | none => rfl
  | some kvs =>
    show (match assocFind kvs item with
          | some (_, some s) => PyVal.vStr s
          | some (_, none) => PyVal.vNone
          | none => opt.default) = opt.default
    cases hfind : assocFind kvs item with
    | none => rfl
    | some p =>
      exact absurd (by rw [rawGet_of_cfgSection _ _ _ _ hsec, hfind]) (h p.2)

/-- `self.config[section].get(item, default)` returns the stored string when
the key has one. -/
theorem carry_value_of_stored (cfg : PyConfig) (sname item : String) (opt : ItemOpt)
    (v : String) (h : rawGet cfg sname item = .ok (some v)) :
    carry_value cfg sname item opt = .vStr v := by
  obtain ⟨kvs, hsec⟩ := rawGet_ok_section cfg sname item (some v) h
  rw [rawGet_of_cfgSection _ _ _ _ hsec] at h
  unfold carry_value
  rw [hsec]
  show (match assocFind kvs item with
        | some (_, some s) => PyVal.vStr s
        | some (_, none) => PyVal.vNone
        | none => opt.default) = PyVal.vStr v
  cases hfind : assocFind kvs item with
  | none => rw [hfind] at h; exact absurd h (by simp)
  | some p =>
    rw [hfind] at h
    cases p with
    | mk k2 v2 =>
      cases v2 with
      | none =>
        have h2 : (Except.ok (none : Option String) : Except String (Option String))
            = .ok (some v) := h
        simp at h2
      | some s =>
        have h2 : (Except.ok (some s) : Except String (Option String)) = .ok (some v) := h
        have h3 : s = v := Option.some.inj (Except.ok.inj h2)
        show PyVal.vStr s = PyVal.vStr v
        rw [h3]

/-- Resolve `get` once the schema entry and the stored string are known. -/
theorem get_resolved (dflts : Defaults) (cfg : PyConfig) (s i : String) (opt : ItemOpt)
    (hl : lookupItem dflts s i = some opt) (str : String)
    (hr : rawGet cfg s i = .ok (some str)) :
    get dflts cfg s i =
      (((match opt.type with
      | .dbool =>
        match pyParseBool str with
        | some b => Except.ok (PyVal.vBool b)
        | none => Except.error "ValueError: not a boolean"
      | .dint =>
        match pyParseInt str with
        | some n => Except.ok (PyVal.vInt n)
        | none => Except.error "ValueError: invalid literal for int"
      | .dfloat =>
        match pyParseDec str with
        | some d => Except.ok (PyVal.vFloat d)
        | none => Except.error "ValueError: could not convert string to float"
      | .dlist => Except.ok (PyVal.vList (parse_list str))
      | .dstr => Except.ok (PyVal.vStr str)) : Except String PyVal).map normNone) := by
  simp only [get, hl, hr]
  cases opt.type <;> rfl

theorem pyParseBool_pyStr (b : Bool) : pyParseBool (pyStr (PyVal.vBool b)) = some b := by
  cases b <;> decide

theorem normNone_vBool (b : Bool) : normNone (PyVal.vBool b) = PyVal.vBool b := rfl

theorem normNone_vInt (i : Int) : normNone (PyVal.vInt i) = PyVal.vInt i := rfl

theorem normNone_vFloat (d : Dec) : normNone (PyVal.vFloat d) = PyVal.vFloat d := rfl

theorem normNone_vList (l : List String) : normNone (PyVal.vList l) = PyVal.vList l := rfl

theorem normNone_vStr_of_ne (s : String) (h : pyLower s ≠ "none") :
    normNone (PyVal.vStr s) = PyVal.vStr s := by
  show (if pyLower s = "none" then PyVal.vNone else PyVal.vStr s) = PyVal.vStr s
  rw [if_neg h]

/-! ### Claims -/

/-- C8: for every raw stored string, `_parse_list` returns the empty sequence
on the empty string, otherwise splits on commas when a comma is present (else
on whitespace) and trims and lowercases each token — stated as equality with
the spec-worded rule, plus the specification test vectors
`"A,b , C" ↦ ["a", "b", "c"]` and `"" ↦ []`. -/
theorem c8_list_parsing_rule :
    (∀ raw, parse_list raw = parse_list_spec raw) ∧
    parse_list "A,b , C" = ["a", "b", "c"] ∧
    parse_list "" = [] := by
  refine ⟨?_, by decide, rfl⟩
  intro raw
  unfold parse_list parse_list_spec
  by_cases h : raw = ""
  · subst h
    rfl
  · have hdata : raw.data.isEmpty = false := by
      cases hd : raw.data with
      | nil =>
        exact absurd (show raw = "" from by
          have : raw = ⟨raw.data⟩ := rfl
          rw [this, hd]) h
      | cons a l => rfl
    rw [if_neg h, hdata]
    simp only [Bool.false_eq_true, if_false]
    by_cases hc : raw.data.contains ','
    · rw [hc]
      simp [pySplit, List.map_map]
    · rw [show raw.data.contains ',' = false by
        cases hcc : raw.data.contains ',' with
        | true => exact absurd hcc hc
        | false => rfl]
      simp only [Bool.false_eq_true, if_false]
      simp [pySplit, List.map_map]

/-- C4: the source intends to require a choice set for list-typed options
(docstring at config.py:226-227 and the error message at config.py:261), but
the guard reads `isinstance(datatype, list)`, which is `False` for every type
object, so the declaration *succeeds* and stores the entry with an empty
choice set: evaluating `add_item` at the failing input shows the entry is
stored rather than rejected. -/
theorem c4_list_choices_guard_never_fires :
    (c4Call.toOption.bind (fun d => lookupItem d "sect" "opt")).map ItemOpt.choices
      = some [] ∧
    (c4Call.toOption.bind (fun d => lookupItem d "sect" "opt")).map ItemOpt.type
      = some DataType.dlist := by
  constructor
  · rfl
  · rfl

/-- C2 counterexample: a boolean option whose stored value is the literal
`"None"` makes `get` raise (`getboolean` rejects the text) instead of
returning an absent value, refuting the claim for the boolean type. -/
theorem c2_counterexample :
    get c2Defaults c2Config "s" "o" = .error "ValueError: not a boolean" ∧
    get c2Defaults c2Config "s" "o" ≠ .ok PyVal.vNone := by
  constructor
  · rfl
  · intro h
    rw [show get c2Defaults c2Config "s" "o" = .error "ValueError: not a boolean" from rfl] at h
    exact absurd h (by simp)

/-- C2 (amended): the case-insensitive `"none"` normalisation in `get` only
takes effect for text-typed options, because it runs after type dispatch: a
text option resolves to an absent value, while for the stored literals
`"None"`, `"none"`, `"NONE"` a boolean/integer/float option raises a
conversion error and a list option yields the parsed token list `["none"]`. -/
theorem c2_none_normalization_amended (dflts : Defaults) (cfg : PyConfig) (s o : String)
    (opt : ItemOpt) (hl : lookupItem dflts s o = some opt) (raw : String)
    (hr : rawGet cfg s o = .ok (some raw)) :
    (opt.type = .dstr → pyLower raw = "none" → get dflts cfg s o = .ok PyVal.vNone) ∧
    (raw = "None" ∨ raw = "none" ∨ raw = "NONE" →
      ((opt.type = .dbool ∨ opt.type = .dint ∨ opt.type = .dfloat) →
        ∃ e, get dflts cfg s o = .error e) ∧
      (opt.type = .dlist → get dflts cfg s o = .ok (PyVal.vList ["none"]))) := by
  have hg := get_resolved dflts cfg s o opt hl raw hr
  constructor
  · intro ht hnone
    rw [ht] at hg
    rw [hg]
    show Except.ok (if pyLower raw = "none" then PyVal.vNone else PyVal.vStr raw)
      = .ok PyVal.vNone
    rw [if_pos hnone]
  · intro hlit
    constructor
    · intro htype
      rcases hlit with rfl | rfl | rfl <;> rcases htype with ht | ht | ht <;> rw [ht] at hg <;>
        exact ⟨_, by rw [hg]; rfl⟩
    · intro ht
      rw [ht] at hg
      rcases hlit with rfl | rfl | rfl <;> (rw [hg]; rfl)

/-- C2 witness: the amended theorem applied to a text option stored as
`"NONE"`. -/
theorem c2_witness : get c2StrDefaults c2StrConfig "s" "o" = .ok PyVal.vNone :=
  (c2_none_normalization_amended c2StrDefaults c2StrConfig "s" "o"
    ⟨PyVal.vStr "x", "h", DataType.dstr, none, none, [], false, true, none⟩
    rfl "NONE" rfl).1 rfl (by decide)

/-- C3 counterexample: generating the default file from a schema with a
list-typed default `["a", "b"]` serialises it as `"[\x27a\x27, \x27b\x27]"`,
which `get` re-parses into the garbled token list, not the declared default —
the round trip fails for list-typed defaults. -/
theorem c3_counterexample :
    get c3Defaults (create_default c3Defaults) "sect" "opt"
      = .ok (PyVal.vList ["[\x27a\x27", "\x27b\x27]"]) ∧
    PyVal.vList ["[\x27a\x27", "\x27b\x27]"] ≠ PyVal.vList ["a", "b"] ∧
    pyEq (PyVal.vList ["[\x27a\x27", "\x27b\x27]"]) (PyVal.vList ["a", "b"]) = false := by
  refine ⟨by rfl, by decide, by decide⟩

/-- C3 (amended): for every well-formed schema and every option whose declared
default matches its non-list type (with a text default not equal to `none`
case-insensitively), generating the default file and reading the option back
through `get` returns a value Python-equal to the declared default; list-typed
defaults are excluded (see the counterexample). -/
theorem c3_round_trip_amended (dflts : Defaults) (hwf : wfDefaultsB dflts = true)
    (sd : SectionDefaults) (hsd : sd ∈ dflts) (item : String) (opt : ItemOpt)
    (hmem : (item, opt) ∈ sd.items) (hok : typeOKb opt = true) :
    ∃ v, get dflts (create_default dflts) sd.name item = .ok v
      ∧ pyEq v opt.default = true := by
  obtain ⟨hnames, hsects⟩ := wfDefaultsB_spec dflts hwf
  obtain ⟨hnodupi, htitles⟩ := hsects sd hsd
  have hitem2 := htitles (item, opt) hmem
  have hl := lookupItem_of_mem dflts hnames sd hsd item opt hmem hnodupi
  have hr : rawGet (create_default dflts) sd.name item = .ok (some (pyStr opt.default)) := by
    rw [create_default_eq]
    exact rawGet_build_config_item _ dflts hnames sd hsd item opt hmem hnodupi hitem2.2
  have hg := get_resolved dflts (create_default dflts) sd.name item opt hl (pyStr opt.default) hr
  unfold typeOKb at hok
  cases htype : opt.type <;> cases hdflt : opt.default <;>
    rw [htype, hdflt] at hok hg <;> simp at hok
  case dstr.vStr s =>
    refine ⟨PyVal.vStr s, ?_, ?_⟩
    · rw [hg]
      show Except.ok (normNone (PyVal.vStr (pyStr (PyVal.vStr s)))) = _
      rw [show pyStr (PyVal.vStr s) = s from rfl, normNone_vStr_of_ne s hok]
    · simp [pyEq]
  case dbool.vBool b =>
    refine ⟨PyVal.vBool b, ?_, ?_⟩
    · rw [hg, pyParseBool_pyStr b]
      rfl
    · simp [pyEq]
  case dint.vInt i =>
    refine ⟨PyVal.vInt i, ?_, ?_⟩
    · rw [hg]
      rw [show pyStr (PyVal.vInt i) = intRepr i from rfl, pyParseInt_intRepr i]
      rfl
    · simp [pyEq]
  case dfloat.vFloat dv =>
    obtain ⟨d2, hp, hv⟩ := pyParseDec_decRepr dv
    refine ⟨PyVal.vFloat d2, ?_, ?_⟩
    · rw [hg]
      rw [show pyStr (PyVal.vFloat dv) = decRepr dv from rfl, hp]
      rfl
    · simp [pyEq, hv]

/-- C3 witness: the amended theorem applied to the float schema with default
`2.5`. -/
theorem c3_witness :
    ∃ v, get c3FloatDefaults (create_default c3FloatDefaults) "s" "o" = .ok v
      ∧ pyEq v c3FloatOpt.default = true :=
  c3_round_trip_amended c3FloatDefaults (by decide) ⟨"s", "h", [("o", c3FloatOpt)]⟩
    (by simp [c3FloatDefaults]) "o" c3FloatOpt (by simp) (by decide)

/-! ### C10 lemmas: `setItem` lookup and `min_max` irrelevance -/

theorem lookupItem_setItem_self (dflts : Defaults) (s t : String) (e : ItemOpt)
    (hs : (lookupSection dflts s).isSome = true) :
    lookupItem (setItem dflts s t e) s t = some e := by
  induction dflts with
  | nil => simp [lookupSection] at hs
  | cons sd rest ih =>
    by_cases h : sd.name = s
    · unfold setItem
      rw [if_pos (by simp [h])]
      unfold lookupItem lookupSection
      rw [List.find?_cons_of_pos _ (by simp [h])]
      show Option.map (fun p => p.2) (assocFind (setItemKV sd.items t e) t) = some e
      unfold setItemKV
      rw [assocFind_assocSet_self]
      rfl
    · unfold setItem
      rw [if_neg (by simp [h])]
      unfold lookupItem lookupSection
      rw [List.find?_cons_of_neg _ (by simp [h])]
      have hs' : (lookupSection rest s).isSome = true := by
        unfold lookupSection at hs
        rw [List.find?_cons_of_neg _ (by simp [h])] at hs
        exact hs
      exact ih hs'

theorem assocFind_map_snd {B C : Type} (g : B → C) (l : List (String × B)) (k : String) :
    assocFind (l.map (fun p => (p.1, g p.2))) k
      = (assocFind l k).map (fun p => (p.1, g p.2)) := by
  induction l with
  | nil => rfl
  | cons p rest ih =>
    rw [List.map_cons, assocFind_cons, assocFind_cons]
    by_cases h : p.1 = k
    · rw [if_pos h, if_pos h]
      rfl
    · rw [if_neg h, if_neg h, ih]

theorem lookupSection_setAllMinMax (dflts : Defaults) (mm : Option (PyVal × PyVal))
    (s : String) :
    lookupSection (setAllMinMax dflts mm) s
      = (lookupSection dflts s).map (fun sd => ⟨sd.name, sd.helptext,
          sd.items.map (fun p => (p.1, setMinMaxOpt mm p.2))⟩) := by
  induction dflts with
  | nil => rfl
  | cons sd rest ih =>
    unfold setAllMinMax at ih ⊢
    rw [List.map_cons]
    unfold lookupSection
    by_cases h : sd.name = s
    · rw [List.find?_cons_of_pos _ (by simp [h]), List.find?_cons_of_pos _ (by simp [h])]
      rfl
    · rw [List.find?_cons_of_neg _ (by simp [h]), List.find?_cons_of_neg _ (by simp [h])]
      exact ih

theorem lookupSection_setAllMinMax_some (dflts : Defaults) (mm : Option (PyVal × PyVal))
    (s : String) (sd : SectionDefaults) (h : lookupSection dflts s = some sd) :
    lookupSection (setAllMinMax dflts mm) s
      = some ⟨sd.name, sd.helptext,
          sd.items.map (fun p => (p.1, setMinMaxOpt mm p.2))⟩ := by
  rw [lookupSection_setAllMinMax, h]
  rfl

theorem lookupSection_setAllMinMax_none (dflts : Defaults) (mm : Option (PyVal × PyVal))
    (s : String) (h : lookupSection dflts s = none) :
    lookupSection (setAllMinMax dflts mm) s = none := by
  rw [lookupSection_setAllMinMax, h]
  rfl

theorem lookupItem_setAllMinMax (dflts : Defaults) (mm : Option (PyVal × PyVal))
    (s i : String) :
    lookupItem (setAllMinMax dflts mm) s i
      = (lookupItem dflts s i).map (setMinMaxOpt mm) := by
  unfold lookupItem
  cases h : lookupSection dflts s with
  | none =>
    rw [lookupSection_setAllMinMax_none dflts mm s h]
    rfl
  | some sd =>
    rw [lookupSection_setAllMinMax_some dflts mm s sd h]
    show Option.map (fun p => p.2)
        (assocFind (sd.items.map (fun p => (p.1, setMinMaxOpt mm p.2))) i)
      = Option.map (setMinMaxOpt mm)
          (Option.map (fun p => p.2) (assocFind sd.items i))
    rw [assocFind_map_snd (setMinMaxOpt mm) sd.items i]
    cases assocFind sd.items i <;> rfl

/-! ### Claim C10 -/

/-- C10: numeric bounds are metadata only.  Declaring an integer or float
option succeeds for *any* supplied default and (min, max) pair — no
containment between them is checked — and the stored entry keeps the default
unchanged; and `get` is entirely independent of the `min_max` metadata, so no
read clamps or rejects an out-of-bounds stored value. -/
theorem c10_min_max_metadata_only :
    (∀ (dflts : Defaults) (s t : String) (dt : DataType) (dv : PyVal) (info : String)
        (r : Int) (mm : PyVal × PyVal) (ch : Option (List String)) (gr fx : Bool)
        (gp : Option String),
      (dt = DataType.dint ∨ dt = DataType.dfloat) →
      (lookupSection dflts s).isSome = true →
      ∃ dflts2, add_item dflts (some s) (some t) dt (some dv) (some info) (some r)
          (some mm) ch gr fx gp = .ok dflts2 ∧
        ∃ e, lookupItem dflts2 s t = some e ∧ e.default = dv ∧ e.min_max = some mm) ∧
    (∀ (dflts : Defaults) (mm : Option (PyVal × PyVal)) (cfg : PyConfig) (s i : String),
      get (setAllMinMax dflts mm) cfg s i = get dflts cfg s i) := by
  constructor
  · intro dflts s t dt dv info r mm ch gr fx gp hdt hsec
    have hcall : add_item dflts (some s) (some t) dt (some dv) (some info) (some r)
        (some mm) ch gr fx gp
        = .ok (setItem dflts s t
            { default := dv,
              helptext := expand_helptext info (ch.getD []) dv dt (some mm) fx,
              type := dt, rounding := some r, min_max := some mm, choices := ch.getD [],
              gui_radio := gr, fixed := fx, group := gp }) := by
      have h1 : (lookupSection dflts s).isNone = false := by
        cases hv : lookupSection dflts s with
        | none => rw [hv] at hsec; simp at hsec
        | some sd => rfl
      simp [add_item, h1, datatype_isinstance_list]
    refine ⟨_, hcall, _, lookupItem_setItem_self dflts s t _ hsec, rfl, rfl⟩
  · intro dflts mm cfg s i
    unfold get
    rw [lookupItem_setAllMinMax]
    cases h : lookupItem dflts s i with
    | none => rfl
    | some opt => rfl

/-- C10 witness: an integer option declared with default `999` outside its
declared bounds `(0, 10)` is stored unchanged, and `get` ignores `min_max`. -/
theorem c10_witness :
    (∃ dflts2, add_item [⟨"s", "h", []⟩] (some "s") (some "o") DataType.dint
        (some (PyVal.vInt 999)) (some "i") (some 1)
        (some (PyVal.vInt 0, PyVal.vInt 10)) none false true none = .ok dflts2 ∧
      ∃ e, lookupItem dflts2 "s" "o" = some e ∧ e.default = PyVal.vInt 999 ∧
        e.min_max = some (PyVal.vInt 0, PyVal.vInt 10)) ∧
    get (setAllMinMax [⟨"s", "h", []⟩] none) [] "s" "o" = get [⟨"s", "h", []⟩] [] "s" "o" :=
  ⟨c10_min_max_metadata_only.1 [⟨"s", "h", []⟩] "s" "o" DataType.dint (PyVal.vInt 999) "i"
      1 (PyVal.vInt 0, PyVal.vInt 10) none false true none (Or.inl rfl) (by decide),
    c10_min_max_metadata_only.2 [⟨"s", "h", []⟩] none [] "s" "o"⟩

/-! ### Claim C5 -/

/-- C5: drift healing.  When the stored section set differs from the schema
the drift check reports a change; `add_new_config_items` rebuilds the config
with exactly the schema's sections, restores any schema key missing from the
store with its serialised default, carries forward the stored string of any
key present in both, and drops every non-comment key that is not in the
schema. -/
theorem c5_drift_healing (cfg : PyConfig) (dflts : Defaults) (hwf : wfDefaultsB dflts = true) :
    (sameSet (cfg.map Prod.fst) (dflts.map SectionDefaults.name) = false →
      check_config_change cfg dflts = true) ∧
    ((add_new_config_items cfg dflts).map Prod.fst = dflts.map SectionDefaults.name) ∧
    (∀ sd ∈ dflts, ∀ item opt, (item, opt) ∈ sd.items →
      ((rawGet cfg sd.name item).toOption = none →
        rawGet (add_new_config_items cfg dflts) sd.name item
          = .ok (some (pyStr opt.default))) ∧
      (∀ v, rawGet cfg sd.name item = .ok (some v) →
        rawGet (add_new_config_items cfg dflts) sd.name item = .ok (some v))) ∧
    (∀ sd ∈ dflts, ∀ k, strStarts k "#" = false → strStarts k "\n" = false →
      k ∉ sd.items.map Prod.fst →
      rawGet (add_new_config_items cfg dflts) sd.name k = .error "NoOptionError") := by
  obtain ⟨hnames, hsects⟩ := wfDefaultsB_spec dflts hwf
  refine ⟨?_, ?_, ?_, ?_⟩
  · intro hss
    simp [check_config_change, hss]
  · rw [add_new_config_items_eq, build_config_map_fst]
    rfl
  · intro sd hsd item opt hmem
    obtain ⟨hnodupi, htitles⟩ := hsects sd hsd
    have hitem2 := htitles (item, opt) hmem
    constructor
    · intro htop
      have hns : ∀ v, rawGet cfg sd.name item ≠ .ok v := by
        intro v hv
        rw [hv] at htop
        simp [Except.toOption] at htop
      rw [add_new_config_items_eq]
      rw [rawGet_build_config_item _ dflts hnames sd hsd item opt hmem hnodupi hitem2.2]
      rw [carry_value_of_not_stored cfg sd.name item opt hns]
    · intro v hv
      rw [add_new_config_items_eq]
      rw [rawGet_build_config_item _ dflts hnames sd hsd item opt hmem hnodupi hitem2.2]
      rw [carry_value_of_stored cfg sd.name item opt v hv]
      rfl
  · intro sd hsd k hk1 hk2 hk3
    rw [add_new_config_items_eq]
    exact rawGet_build_config_extraneous _ dflts hnames sd hsd k hk1 hk2 hk3

/-- C5 witness: on a concrete drifted store, the deleted key `miss` comes back
with its serialised default, the surviving key `keep` keeps the stored `"7"`,
and the extraneous key `extra` is gone. -/
theorem c5_witness :
    rawGet (add_new_config_items c5Cfg c5Dflts) "s" "miss"
      = .ok (some (pyStr (PyVal.vInt 3))) ∧
    rawGet (add_new_config_items c5Cfg c5Dflts) "s" "keep" = .ok (some "7") ∧
    rawGet (add_new_config_items c5Cfg c5Dflts) "s" "extra" = .error "NoOptionError" :=
  ⟨((c5_drift_healing c5Cfg c5Dflts (by decide)).2.2.1
      ⟨"s", "h", [("miss", intOpt 3), ("keep", intOpt 5)]⟩ (by simp [c5Dflts])
      "miss" (intOpt 3) (by simp)).1 (by decide),
   ((c5_drift_healing c5Cfg c5Dflts (by decide)).2.2.1
      ⟨"s", "h", [("miss", intOpt 3), ("keep", intOpt 5)]⟩ (by simp [c5Dflts])
      "keep" (intOpt 5) (by simp)).2 "7" (by rfl),
   (c5_drift_healing c5Cfg c5Dflts (by decide)).2.2.2
      ⟨"s", "h", [("miss", intOpt 3), ("keep", intOpt 5)]⟩ (by simp [c5Dflts])
      "extra" (by decide) (by decide) (by decide)⟩

/-! ### Claim C6 -/

theorem sameSet_of_mems (a b : List String) (h1 : ∀ x ∈ a, x ∈ b) (h2 : ∀ x ∈ b, x ∈ a) :
    sameSet a b = true := by
  unfold sameSet
  rw [Bool.and_eq_true, List.all_eq_true, List.all_eq_true]
  constructor
  · intro x hx
    exact List.elem_iff.mpr (h1 x hx)
  · intro x hx
    exact List.elem_iff.mpr (h2 x hx)

/-- C6: idempotence of reconciliation.  If the stored config's section names
equal the schema's sections (as sets) and, in each section, the stored
non-comment keys equal the schema titles (as sets), then `check_config_change`
reports no drift and `validate_config` performs no rewrite: it passes the
loaded config unchanged to choice validation. -/
theorem c6_idempotent_reconciliation (cfg : PyConfig) (dflts : Defaults)
    (h1 : ∀ s ∈ cfg.map Prod.fst, s ∈ dflts.map SectionDefaults.name)
    (h2 : ∀ s ∈ dflts.map SectionDefaults.name, s ∈ cfg.map Prod.fst)
    (h3 : ∀ sd ∈ dflts,
      (∀ k ∈ nonCommentKeys ((cfgSection cfg sd.name).getD []), k ∈ sd.items.map Prod.fst) ∧
      (∀ k ∈ sd.items.map Prod.fst, k ∈ nonCommentKeys ((cfgSection cfg sd.name).getD []))) :
    check_config_change cfg dflts = false ∧
    validate_config cfg dflts = check_config_choices cfg dflts := by
  have hchange : check_config_change cfg dflts = false := by
    unfold check_config_change
    rw [sameSet_of_mems _ _ h1 h2]
    simp only [Bool.not_true, Bool.false_eq_true, if_false]
    rw [List.any_eq_false]
    intro sd hsd
    simp [sameSet_of_mems _ _ (h3 sd hsd).1 (h3 sd hsd).2]
  refine ⟨hchange, ?_⟩
  unfold validate_config
  rw [hchange]
  simp

/-- C6 witness: a store that exactly matches its schema triggers no drift and
no rewrite. -/
theorem c6_witness :
    check_config_change c6Cfg c6Dflts = false ∧
    validate_config c6Cfg c6Dflts = check_config_choices c6Cfg c6Dflts :=
  c6_idempotent_reconciliation c6Cfg c6Dflts (by decide) (by decide) (by decide)

/-! ### Lemmas: one step of the choice-validation sweep -/

theorem isOkSome_iff (r : Except String (Option String)) :
    isOkSome r = true ↔ ∃ v, r = .ok (some v) := by
  cases r with
  | error e => simp [isOkSome]
  | ok o =>
    cases o with
    | none => simp [isOkSome]
    | some v => simp [isOkSome]

theorem check_item_skip (cfg : PyConfig) (s i : String) (o : ItemOpt)
    (h : o.choices.isEmpty = true) : check_item_choices cfg s i o = .ok (cfg, []) := by
  unfold check_item_choices
  rw [if_pos h]

theorem check_item_list_eq (cfg : PyConfig) (s i : String) (o : ItemOpt)
    (h1 : o.choices.isEmpty = false) (h2 : o.type = .dlist)
    (raw : Option String) (hr : rawGet cfg s i = .ok raw) :
    check_item_choices cfg s i o = .ok (check_list_item cfg s i o.choices raw) := by
  unfold check_item_choices
  rw [if_neg (by simp [h1]), if_pos h2, hr]

theorem check_item_single_eq (cfg : PyConfig) (s i : String) (o : ItemOpt)
    (h1 : o.choices.isEmpty = false) (h2 : ¬ o.type = .dlist)
    (str : String) (hr : rawGet cfg s i = .ok (some str)) :
    check_item_choices cfg s i o = .ok (check_single_item cfg s i o str) := by
  unfold check_item_choices
  rw [if_neg (by simp [h1]), if_neg h2, hr]

theorem check_list_item_cases (cfg : PyConfig) (s i : String) (ch : List String)
    (raw : Option String) :
    check_list_item cfg s i ch raw = (cfg, []) ∨
      ∃ v, check_list_item cfg s i ch raw = (cfgSet cfg s i (some v), [(s, i)]) := by
  unfold check_list_item
  split_ifs
  · left; rfl
  · right; exact ⟨_, rfl⟩
  · left; rfl

theorem check_single_item_cases (cfg : PyConfig) (s i : String) (o : ItemOpt)
    (str : String) :
    check_single_item cfg s i o str = (cfg, []) ∨
      ∃ v, check_single_item cfg s i o str = (cfgSet cfg s i (some v), [(s, i)]) := by
  unfold check_single_item
  split_ifs
  · left; rfl
  · right; exact ⟨_, rfl⟩
  · left; rfl

theorem check_item_out_cases (cfg : PyConfig) (s i : String) (o : ItemOpt)
    (cfg' : PyConfig) (w : Warnings)
    (h : check_item_choices cfg s i o = .ok (cfg', w)) :
    (cfg' = cfg ∧ w = []) ∨ ∃ v, cfg' = cfgSet cfg s i (some v) ∧ w = [(s, i)] := by
  by_cases h1 : o.choices.isEmpty
  · rw [check_item_skip cfg s i o h1] at h
    have h2 := Except.ok.inj h
    left
    exact ⟨(congrArg Prod.fst h2).symm, (congrArg Prod.snd h2).symm⟩
  · have h1' : o.choices.isEmpty = false := by
      cases hx : o.choices.isEmpty
      · rfl
      · exact absurd hx h1
    by_cases h2 : o.type = .dlist
    · cases hr : rawGet cfg s i with
      | error e =>
        unfold check_item_choices at h
        rw [if_neg (by simp [h1']), if_pos h2, hr] at h
        exact absurd h (by simp)
      | ok raw =>
        rw [check_item_list_eq cfg s i o h1' h2 raw hr] at h
        have h3 := Except.ok.inj h
        rcases check_list_item_cases cfg s i o.choices raw with hc | ⟨v, hc⟩
        · rw [hc] at h3
          left
          exact ⟨(congrArg Prod.fst h3).symm, (congrArg Prod.snd h3).symm⟩
        · rw [hc] at h3
          right
          exact ⟨v, (congrArg Prod.fst h3).symm, (congrArg Prod.snd h3).symm⟩
    · cases hr : rawGet cfg s i with
      | error e =>
        unfold check_item_choices at h
        rw [if_neg (by simp [h1']), if_neg h2, hr] at h
        exact absurd h (by simp)
      | ok raw =>
        cases raw with
        | none =>
          unfold check_item_choices at h
          rw [if_neg (by simp [h1']), if_neg h2, hr] at h
          exact absurd h (by simp)
        | some str =>
          rw [check_item_single_eq cfg s i o h1' h2 str hr] at h
          have h3 := Except.ok.inj h
          rcases check_single_item_cases cfg s i o str with hc | ⟨v, hc⟩
          · rw [hc] at h3
            left
            exact ⟨(congrArg Prod.fst h3).symm, (congrArg Prod.snd h3).symm⟩
          · rw [hc] at h3
            right
            exact ⟨v, (congrArg Prod.fst h3).symm, (congrArg Prod.snd h3).symm⟩

theorem check_item_preserves (cfg : PyConfig) (s i : String) (o : ItemOpt)
    (cfg' : PyConfig) (w : Warnings) (h : check_item_choices cfg s i o = .ok (cfg', w)) :
    (∀ s2 i2, s2 ≠ s ∨ i2 ≠ i → rawGet cfg' s2 i2 = rawGet cfg s2 i2) ∧
    (∀ s2 i2 v, rawGet cfg s2 i2 = .ok (some v) → ∃ v2, rawGet cfg' s2 i2 = .ok (some v2)) := by
  rcases check_item_out_cases cfg s i o cfg' w h with ⟨hc, _⟩ | ⟨v, hc, _⟩
  · subst hc
    exact ⟨fun _ _ _ => rfl, fun s2 i2 v hv => ⟨v, hv⟩⟩
  · subst hc
    constructor
    · intro s2 i2 hne
      refine rawGet_cfgSet_ne cfg s i s2 i2 (some v) ?_
      rcases hne with h' | h'
      · exact Or.inl (Ne.symm h')
      · exact Or.inr (Ne.symm h')
    · intro s2 i2 v0 hv0
      by_cases hs : s2 = s ∧ i2 = i
      · obtain ⟨rfl, rfl⟩ := hs
        obtain ⟨kvs, hsec⟩ := rawGet_ok_section cfg s2 i2 (some v0) hv0
        exact ⟨v, rawGet_cfgSet_self cfg s2 i2 (some v) kvs hsec⟩
      · have hne : s ≠ s2 ∨ i ≠ i2 := by
          by_cases h1 : s2 = s
          · right
            intro hc2
            exact hs ⟨h1, hc2.symm⟩
          · left
            exact fun hc2 => h1 hc2.symm
        rw [rawGet_cfgSet_ne cfg s i s2 i2 (some v) hne]
        exact ⟨v0, hv0⟩

theorem check_item_slot (cfg : PyConfig) (s i : String) (o : ItemOpt)
    (hch : o.choices.isEmpty = false) (raw : String)
    (hr : rawGet cfg s i = .ok (some raw)) :
    ∃ cfg', check_item_choices cfg s i o
        = .ok (cfg', if itemWarns raw o = true then [(s, i)] else []) ∧
      rawGet cfg' s i = .ok (itemSlotOut raw o) := by
  obtain ⟨kvs, hsec⟩ := rawGet_ok_section cfg s i (some raw) hr
  have hplr : parse_list_raw (some raw) = parse_list raw := rfl
  by_cases h2 : o.type = .dlist
  · have hitem := check_item_list_eq cfg s i o hch h2 (some raw) hr
    by_cases h3 : (parse_list raw).isEmpty = true
    · have hcl : check_list_item cfg s i o.choices (some raw) = (cfg, []) := by
        unfold check_list_item
        rw [hplr, if_pos h3]
      have hw : itemWarns raw o = false := by
        unfold itemWarns
        rw [if_pos h2, h3]
        rfl
      have hout : itemSlotOut raw o = some raw := by
        unfold itemSlotOut
        rw [if_pos h2, if_pos h3]
      refine ⟨cfg, ?_, by rw [hout]; exact hr⟩
      rw [hitem, hcl, hw]
      rfl
    · have h3' : (parse_list raw).isEmpty = false := by
        cases hx : (parse_list raw).isEmpty
        · rfl
        · exact absurd hx h3
      by_cases h4 : (parse_list raw).any (fun v => !o.choices.contains v) = true
      · have hcl : check_list_item cfg s i o.choices (some raw)
            = (cfgSet cfg s i (some (joinWith ", "
                ((parse_list raw).filter (fun v => o.choices.contains v)))), [(s, i)]) := by
          unfold check_list_item
          rw [hplr, if_neg (by rw [h3']; simp), if_pos h4]
        have hw : itemWarns raw o = true := by
          unfold itemWarns
          rw [if_pos h2, h3', h4]
          rfl
        have hout : itemSlotOut raw o
            = some (joinWith ", " ((parse_list raw).filter (fun v => o.choices.contains v))) := by
          unfold itemSlotOut
          rw [if_pos h2, if_neg (by rw [h3']; simp), if_pos h4]
        refine ⟨cfgSet cfg s i (some (joinWith ", "
          ((parse_list raw).filter (fun v => o.choices.contains v)))), ?_, ?_⟩
        · rw [hitem, hcl, hw]
          rfl
        · rw [hout]
          exact rawGet_cfgSet_self cfg s i _ kvs hsec
      · have h4' : (parse_list raw).any (fun v => !o.choices.contains v) = false := by
          cases hx : (parse_list raw).any (fun v => !o.choices.contains v)
          · rfl
          · exact absurd hx h4
        have hcl : check_list_item cfg s i o.choices (some raw) = (cfg, []) := by
          unfold check_list_item
          rw [hplr, if_neg (by rw [h3']; simp), if_neg (by rw [h4']; simp)]
        have hw : itemWarns raw o = false := by
          unfold itemWarns
          rw [if_pos h2, h3', h4']
          rfl
        have hout : itemSlotOut raw o = some raw := by
          unfold itemSlotOut
          rw [if_pos h2, if_neg (by rw [h3']; simp), if_neg (by rw [h4']; simp)]
        refine ⟨cfg, ?_, by rw [hout]; exact hr⟩
        rw [hitem, hcl, hw]
        rfl
  · have hitem := check_item_single_eq cfg s i o hch h2 raw hr
    by_cases h5 : (pyLower raw = "none" && o.choices.any (fun c => pyLower c = "none")) = true
    · have hcs : check_single_item cfg s i o raw = (cfg, []) := by
        unfold check_single_item
        rw [if_pos h5]
      have hw : itemWarns raw o = false := by
        unfold itemWarns
        rw [if_neg h2, h5]
        rfl
      have hout : itemSlotOut raw o = some raw := by
        unfold itemSlotOut
        rw [if_neg h2, if_pos h5]
      refine ⟨cfg, ?_, by rw [hout]; exact hr⟩
      rw [hitem, hcs, hw]
      rfl
    · have h5' : (pyLower raw = "none" && o.choices.any (fun c => pyLower c = "none")) = false := by
        cases hx : (pyLower raw = "none" && o.choices.any (fun c => pyLower c = "none"))
        · rfl
        · exact absurd hx h5
      by_cases h6 : o.choices.contains raw = true
      · have hcs : check_single_item cfg s i o raw = (cfg, []) := by
          unfold check_single_item
          rw [if_neg (by rw [h5']; simp), if_neg (by rw [h6]; simp)]
        have hw : itemWarns raw o = false := by
          unfold itemWarns
          rw [if_neg h2, h5', h6]
          rfl
        have hout : itemSlotOut raw o = some raw := by
          unfold itemSlotOut
          rw [if_neg h2, if_neg (by rw [h5']; simp), if_neg (by rw [h6]; simp)]
        refine ⟨cfg, ?_, by rw [hout]; exact hr⟩
        rw [hitem, hcs, hw]
        rfl
      · have h6' : o.choices.contains raw = false := by
          cases hx : o.choices.contains raw
          · rfl
          · exact absurd hx h6
        have hcs : check_single_item cfg s i o raw
            = (cfgSet cfg s i (some (pyStr o.default)), [(s, i)]) := by
          unfold check_single_item
          rw [if_neg (by rw [h5']; simp), if_pos (by rw [h6']; simp)]
        have hw : itemWarns raw o = true := by
          unfold itemWarns
          rw [if_neg h2, h5', h6']
          rfl
        have hout : itemSlotOut raw o = some (pyStr o.default) := by
          unfold itemSlotOut
          rw [if_neg h2, if_neg (by rw [h5']; simp), if_pos (by rw [h6']; simp)]
        refine ⟨cfgSet cfg s i (some (pyStr o.default)), ?_, ?_⟩
        · rw [hitem, hcs, hw]
          rfl
        · rw [hout]
          exact rawGet_cfgSet_self cfg s i _ kvs hsec

/-! ### Lemmas: the choice-validation sweep over one section's items -/

theorem check_items_append (s : String) (l1 l2 : List (String × ItemOpt)) :
    ∀ cfg, check_items_choices cfg s (l1 ++ l2)
      = match check_items_choices cfg s l1 with
        | .error e => .error e
        | .ok (cfg1, w1) =>
          match check_items_choices cfg1 s l2 with
          | .error e => .error e
          | .ok (cfg2, w2) => .ok (cfg2, w1 ++ w2) := by
  induction l1 with
  | nil =>
    intro cfg
    show check_items_choices cfg s l2
        = match check_items_choices cfg s l2 with
          | Except.error e => Except.error e
          | Except.ok (cfg2, w2) => Except.ok (cfg2, List.nil ++ w2)
    cases h : check_items_choices cfg s l2 with
    | error e => rfl
    | ok out =>
      cases out with
      | mk cfg2 w2 => rfl
  | cons p rest ih =>
    intro cfg
    cases p with
    | mk item opt =>
      have heq1 : check_items_choices cfg s ((item, opt) :: (rest ++ l2))
          = match check_item_choices cfg s item opt with
            | Except.error e => Except.error e
            | Except.ok (cfg1, w1) =>
              match check_items_choices cfg1 s (rest ++ l2) with
              | Except.error e => Except.error e
              | Except.ok (cfg2, w2) => Except.ok (cfg2, w1 ++ w2) := rfl
      have heq2 : check_items_choices cfg s ((item, opt) :: rest)
          = match check_item_choices cfg s item opt with
            | Except.error e => Except.error e
            | Except.ok (cfg1, w1) =>
              match check_items_choices cfg1 s rest with
              | Except.error e => Except.error e
              | Except.ok (cfg2, w2) => Except.ok (cfg2, w1 ++ w2) := rfl
      rw [List.cons_append, heq1, heq2]
      cases h1 : check_item_choices cfg s item opt with
      | error e => rfl
      | ok out =>
        cases out with
        | mk cfg1 w1 =>
          show (match check_items_choices cfg1 s (rest ++ l2) with
                | Except.error e => Except.error e
                | Except.ok (cfg2, w2) => Except.ok (cfg2, w1 ++ w2))
              = match (match check_items_choices cfg1 s rest with
                       | Except.error e => Except.error e
                       | Except.ok (cfg2, w2) => Except.ok (cfg2, w1 ++ w2)) with
                | Except.error e => Except.error e
                | Except.ok (cfg1v, w1v) =>
                  match check_items_choices cfg1v s l2 with
                  | Except.error e => Except.error e
                  | Except.ok (cfg2, w2) => Except.ok (cfg2, w1v ++ w2)
          rw [ih cfg1]
          cases h2 : check_items_choices cfg1 s rest with
          | error e => rfl
          | ok out2 =>
            cases out2 with
            | mk cfg2 w2 =>
              show (match (match check_items_choices cfg2 s l2 with
                           | Except.error e => Except.error e
                           | Except.ok (c2, w2v) => Except.ok (c2, w2 ++ w2v)) with
                    | Except.error e => Except.error e
                    | Except.ok (c2, w2v) => Except.ok (c2, w1 ++ w2v))
                  = match check_items_choices cfg2 s l2 with
                    | Except.error e => Except.error e
                    | Except.ok (c2, w2v) => Except.ok (c2, w1 ++ w2 ++ w2v)
              cases h3 : check_items_choices cfg2 s l2 with
              | error e => rfl
              | ok out3 =>
                cases out3 with
                | mk cfg3 w3 => simp

theorem readyItemsB_mono (cfg cfg' : PyConfig) (s : String)
    (items : List (String × ItemOpt))
    (hsome : ∀ s2 i2 v, rawGet cfg s2 i2 = .ok (some v) →
      ∃ v2, rawGet cfg' s2 i2 = .ok (some v2))
    (h : readyItemsB cfg s items = true) : readyItemsB cfg' s items = true := by
  unfold readyItemsB at h ⊢
  rw [List.all_eq_true] at h ⊢
  intro p hp
  have hp2 := h p hp
  rw [Bool.or_eq_true] at hp2
  rcases hp2 with h1 | h1
  · rw [h1]
    rfl
  · obtain ⟨v, hv⟩ := (isOkSome_iff _).1 h1
    obtain ⟨v2, hv2⟩ := hsome s p.1 v hv
    rw [Bool.or_eq_true]
    right
    rw [isOkSome_iff]
    exact ⟨v2, hv2⟩

theorem check_item_exists_ok (cfg : PyConfig) (s item : String) (opt : ItemOpt)
    (hready : (opt.choices.isEmpty || isOkSome (rawGet cfg s item)) = true) :
    ∃ cfg1 w1, check_item_choices cfg s item opt = .ok (cfg1, w1) := by
  by_cases hemp : opt.choices.isEmpty = true
  · exact ⟨cfg, [], check_item_skip cfg s item opt hemp⟩
  · have hemp' : opt.choices.isEmpty = false := by
      cases hx : opt.choices.isEmpty
      · rfl
      · exact absurd hx hemp
    rw [Bool.or_eq_true] at hready
    rcases hready with h1 | h1
    · exact absurd h1 hemp
    · obtain ⟨v, hv⟩ := (isOkSome_iff _).1 h1
      by_cases ht : opt.type = .dlist
      · exact ⟨_, _, check_item_list_eq cfg s item opt hemp' ht (some v) hv⟩
      · exact ⟨_, _, check_item_single_eq cfg s item opt hemp' ht v hv⟩

theorem check_items_go (s : String) (items : List (String × ItemOpt)) :
    ∀ cfg, readyItemsB cfg s items = true →
      ∃ cfg' w, check_items_choices cfg s items = .ok (cfg', w) ∧
        (∀ s2 i2, (s2 ≠ s ∨ i2 ∉ items.map Prod.fst) →
          rawGet cfg' s2 i2 = rawGet cfg s2 i2) ∧
        (∀ s2 i2 v, rawGet cfg s2 i2 = .ok (some v) →
          ∃ v2, rawGet cfg' s2 i2 = .ok (some v2)) ∧
        (∀ pr ∈ w, pr.1 = s ∧ pr.2 ∈ items.map Prod.fst) := by
  induction items with
  | nil =>
    intro cfg _
    exact ⟨cfg, [], rfl, fun _ _ _ => rfl, fun s2 i2 v hv => ⟨v, hv⟩, by simp⟩
  | cons p rest ih =>
    intro cfg hready
    cases p with
    | mk item opt =>
      have hready2 : (opt.choices.isEmpty || isOkSome (rawGet cfg s item)) = true ∧
          readyItemsB cfg s rest = true := by
        unfold readyItemsB at hready
        rw [List.all_cons, Bool.and_eq_true] at hready
        exact hready
      obtain ⟨cfg1, w1, hstep⟩ := check_item_exists_ok cfg s item opt hready2.1
      have hpres := check_item_preserves cfg s item opt cfg1 w1 hstep
      have hreadyrest : readyItemsB cfg1 s rest = true :=
        readyItemsB_mono cfg cfg1 s rest hpres.2 hready2.2
      obtain ⟨cfg2, w2, hrest, hslot2, hsome2, hw2⟩ := ih cfg1 hreadyrest
      refine ⟨cfg2, w1 ++ w2, ?_, ?_, ?_, ?_⟩
      · have heq : check_items_choices cfg s ((item, opt) :: rest)
            = match check_item_choices cfg s item opt with
              | .error e => .error e
              | .ok (cfg1', w1') =>
                match check_items_choices cfg1' s rest with
                | .error e => .error e
                | .ok (cfg2', w2') => .ok (cfg2', w1' ++ w2') := rfl
        rw [heq, hstep]
        show (match check_items_choices cfg1 s rest with
              | Except.error e => Except.error e
              | Except.ok (cfg2', w2') => Except.ok (cfg2', w1 ++ w2'))
            = Except.ok (cfg2, w1 ++ w2)
        rw [hrest]
      · intro s2 i2 hcond
        have hcond1 : s2 ≠ s ∨ i2 ∉ rest.map Prod.fst := by
          rcases hcond with h' | h'
          · exact Or.inl h'
          · right
            intro hc
            exact h' (by simp [hc])
        have hcond2 : s2 ≠ s ∨ i2 ≠ item := by
          rcases hcond with h' | h'
          · exact Or.inl h'
          · right
            intro hc
            exact h' (by simp [hc])
        rw [hslot2 s2 i2 hcond1, hpres.1 s2 i2 hcond2]
      · intro s2 i2 v hv
        obtain ⟨v1, hv1⟩ := hpres.2 s2 i2 v hv
        exact hsome2 s2 i2 v1 hv1
      · intro pr hpr
        rcases List.mem_append.1 hpr with hm | hm
        · rcases check_item_out_cases cfg s item opt cfg1 w1 hstep with ⟨_, hw⟩ | ⟨v, _, hw⟩
          · rw [hw] at hm
            simp at hm
          · rw [hw] at hm
            rcases List.mem_singleton.1 hm with rfl
            exact ⟨rfl, by simp⟩
        · obtain ⟨h1, h2⟩ := hw2 pr hm
          exact ⟨h1, by simp [h2]⟩

theorem check_items_located (s item : String) (opt : ItemOpt)
    (ipre ipost : List (String × ItemOpt)) (cfg : PyConfig)
    (hready : readyItemsB cfg s (ipre ++ (item, opt) :: ipost) = true)
    (hpre : item ∉ ipre.map Prod.fst) (hpost : item ∉ ipost.map Prod.fst)
    (hch : opt.choices.isEmpty = false) (raw : String)
    (hr : rawGet cfg s item = .ok (some raw)) :
    ∃ cfg' w, check_items_choices cfg s (ipre ++ (item, opt) :: ipost) = .ok (cfg', w) ∧
      rawGet cfg' s item = .ok (itemSlotOut raw opt) ∧
      ((s, item) ∈ w ↔ itemWarns raw opt = true) ∧
      (∀ s2 i2 v, rawGet cfg s2 i2 = .ok (some v) →
        ∃ v2, rawGet cfg' s2 i2 = .ok (some v2)) ∧
      (∀ s2 i2, s2 ≠ s → rawGet cfg' s2 i2 = rawGet cfg s2 i2) := by
  have hsplit : readyItemsB cfg s ipre = true
      ∧ readyItemsB cfg s ((item, opt) :: ipost) = true := by
    unfold readyItemsB at hready ⊢
    rw [List.all_append] at hready
    rw [Bool.and_eq_true] at hready
    exact hready
  have hreadypost0 : readyItemsB cfg s ipost = true := by
    have := hsplit.2
    unfold readyItemsB at this ⊢
    rw [List.all_cons, Bool.and_eq_true] at this
    exact this.2
  obtain ⟨cfgA, wA, hA, hslotA, hsomeA, hwA⟩ := check_items_go s ipre cfg hsplit.1
  have hrA : rawGet cfgA s item = .ok (some raw) := by
    rw [hslotA s item (Or.inr hpre)]
    exact hr
  obtain ⟨cfgB, hB, hslotB⟩ := check_item_slot cfgA s item opt hch raw hrA
  have hpresB := check_item_preserves cfgA s item opt cfgB _ hB
  have hreadypost : readyItemsB cfgB s ipost = true :=
    readyItemsB_mono cfgA cfgB s ipost hpresB.2
      (readyItemsB_mono cfg cfgA s ipost hsomeA hreadypost0)
  obtain ⟨cfgC, wC, hC, hslotC, hsomeC, hwC⟩ := check_items_go s ipost cfgB hreadypost
  refine ⟨cfgC, wA ++ ((if itemWarns raw opt = true then [(s, item)] else []) ++ wC),
    ?_, ?_, ?_, ?_, ?_⟩
  · rw [check_items_append s ipre ((item, opt) :: ipost) cfg, hA]
    show (match check_items_choices cfgA s ((item, opt) :: ipost) with
          | Except.error e => Except.error e
          | Except.ok (cfg2', w2') => Except.ok (cfg2', wA ++ w2'))
        = Except.ok (cfgC, wA ++ ((if itemWarns raw opt = true then [(s, item)] else []) ++ wC))
    have hcons : check_items_choices cfgA s ((item, opt) :: ipost)
        = .ok (cfgC, (if itemWarns raw opt = true then [(s, item)] else []) ++ wC) := by
      have heq : check_items_choices cfgA s ((item, opt) :: ipost)
          = match check_item_choices cfgA s item opt with
            | .error e => .error e
            | .ok (cfg1', w1') =>
              match check_items_choices cfg1' s ipost with
              | .error e => .error e
              | .ok (cfg2', w2') => .ok (cfg2', w1' ++ w2') := rfl
      rw [heq, hB]
      show (match check_items_choices cfgB s ipost with
            | Except.error e => Except.error e
            | Except.ok (cfg2', w2') =>
              Except.ok (cfg2', (if itemWarns raw opt = true then [(s, item)] else []) ++ w2'))
          = Except.ok (cfgC, (if itemWarns raw opt = true then [(s, item)] else []) ++ wC)
      rw [hC]
    rw [hcons]
  · rw [hslotC s item (Or.inr hpost)]
    exact hslotB
  · constructor
    · intro hmem
      rcases List.mem_append.1 hmem with hm | hm
      · exact absurd (hwA _ hm).2 hpre
      · rcases List.mem_append.1 hm with hm2 | hm2
        · by_cases hw : itemWarns raw opt = true
          · exact hw
          · rw [if_neg hw] at hm2
            simp at hm2
        · exact absurd (hwC _ hm2).2 hpost
    · intro hw
      refine List.mem_append.2 (Or.inr (List.mem_append.2 (Or.inl ?_)))
      rw [if_pos hw]
      simp
  · intro s2 i2 v hv
    obtain ⟨v1, hv1⟩ := hsomeA s2 i2 v hv
    obtain ⟨v2, hv2⟩ := hpresB.2 s2 i2 v1 hv1
    exact hsomeC s2 i2 v2 hv2
  · intro s2 i2 hne
    rw [hslotC s2 i2 (Or.inl hne), hpresB.1 s2 i2 (Or.inl hne), hslotA s2 i2 (Or.inl hne)]

/-! ### Lemmas: the choice-validation sweep over the whole schema -/

theorem check_sections_append (l1 l2 : Defaults) :
    ∀ cfg, check_sections_choices cfg (l1 ++ l2)
      = match check_sections_choices cfg l1 with
        | Except.error e => Except.error e
        | Except.ok (cfg1, w1) =>
          match check_sections_choices cfg1 l2 with
          | Except.error e => Except.error e
          | Except.ok (cfg2, w2) => Except.ok (cfg2, w1 ++ w2) := by
  induction l1 with
  | nil =>
    intro cfg
    show check_sections_choices cfg l2
        = match check_sections_choices cfg l2 with
          | Except.error e => Except.error e
          | Except.ok (cfg2, w2) => Except.ok (cfg2, List.nil ++ w2)
    cases h : check_sections_choices cfg l2 with
    | error e => rfl
    | ok out =>
      cases out with
      | mk cfg2 w2 => rfl
  | cons sd rest ih =>
    intro cfg
    have heq1 : check_sections_choices cfg (sd :: (rest ++ l2))
        = match check_items_choices cfg sd.name sd.items with
          | Except.error e => Except.error e
          | Except.ok (cfg1, w1) =>
            match check_sections_choices cfg1 (rest ++ l2) with
            | Except.error e => Except.error e
            | Except.ok (cfg2, w2) => Except.ok (cfg2, w1 ++ w2) := rfl
    have heq2 : check_sections_choices cfg (sd :: rest)
        = match check_items_choices cfg sd.name sd.items with
          | Except.error e => Except.error e
          | Except.ok (cfg1, w1) =>
            match check_sections_choices cfg1 rest with
            | Except.error e => Except.error e
            | Except.ok (cfg2, w2) => Except.ok (cfg2, w1 ++ w2) := rfl
    rw [List.cons_append, heq1, heq2]
    cases h1 : check_items_choices cfg sd.name sd.items with
    | error e => rfl
    | ok out =>
      cases out with
      | mk cfg1 w1 =>
        show (match check_sections_choices cfg1 (rest ++ l2) with
              | Except.error e => Except.error e
              | Except.ok (cfg2, w2) => Except.ok (cfg2, w1 ++ w2))
            = match (match check_sections_choices cfg1 rest with
                     | Except.error e => Except.error e
                     | Except.ok (cfg2, w2) => Except.ok (cfg2, w1 ++ w2)) with
              | Except.error e => Except.error e
              | Except.ok (cfg1v, w1v) =>
                match check_sections_choices cfg1v l2 with
                | Except.error e => Except.error e
                | Except.ok (cfg2, w2) => Except.ok (cfg2, w1v ++ w2)
        rw [ih cfg1]
        cases h2 : check_sections_choices cfg1 rest with
        | error e => rfl
        | ok out2 =>
          cases out2 with
          | mk cfg2 w2 =>
            show (match (match check_sections_choices cfg2 l2 with
                         | Except.error e => Except.error e
                         | Except.ok (c2, w2v) => Except.ok (c2, w2 ++ w2v)) with
                  | Except.error e => Except.error e
                  | Except.ok (c2, w2v) => Except.ok (c2, w1 ++ w2v))
                = match check_sections_choices cfg2 l2 with
                  | Except.error e => Except.error e
                  | Except.ok (c2, w2v) => Except.ok (c2, w1 ++ w2 ++ w2v)
            cases h3 : check_sections_choices cfg2 l2 with
            | error e => rfl
            | ok out3 =>
              cases out3 with
              | mk cfg3 w3 => simp

theorem readyAllB_mono (cfg cfg' : PyConfig) (dflts : Defaults)
    (hsome : ∀ s2 i2 v, rawGet cfg s2 i2 = .ok (some v) →
      ∃ v2, rawGet cfg' s2 i2 = .ok (some v2))
    (h : readyAllB cfg dflts = true) : readyAllB cfg' dflts = true := by
  unfold readyAllB at h ⊢
  rw [List.all_eq_true] at h ⊢
  intro sd hsd
  exact readyItemsB_mono cfg cfg' sd.name sd.items hsome (h sd hsd)

theorem check_sections_go (dflts : Defaults) :
    ∀ cfg, readyAllB cfg dflts = true →
      ∃ cfg' w, check_sections_choices cfg dflts = .ok (cfg', w) ∧
        (∀ s2 i2, s2 ∉ dflts.map SectionDefaults.name →
          rawGet cfg' s2 i2 = rawGet cfg s2 i2) ∧
        (∀ s2 i2 v, rawGet cfg s2 i2 = .ok (some v) →
          ∃ v2, rawGet cfg' s2 i2 = .ok (some v2)) ∧
        (∀ pr ∈ w, pr.1 ∈ dflts.map SectionDefaults.name) := by
  induction dflts with
  | nil =>
    intro cfg _
    exact ⟨cfg, [], rfl, fun _ _ _ => rfl, fun s2 i2 v hv => ⟨v, hv⟩, by simp⟩
  | cons sd rest ih =>
    intro cfg hready
    have hready2 : readyItemsB cfg sd.name sd.items = true ∧
        readyAllB cfg rest = true := by
      unfold readyAllB at hready
      rw [List.all_cons, Bool.and_eq_true] at hready
      exact hready
    obtain ⟨cfgA, wA, hA, hslotA, hsomeA, hwA⟩ :=
      check_items_go sd.name sd.items cfg hready2.1
    have hreadyrest : readyAllB cfgA rest = true :=
      readyAllB_mono cfg cfgA rest hsomeA hready2.2
    obtain ⟨cfgB, wB, hB, hslotB, hsomeB, hwB⟩ := ih cfgA hreadyrest
    refine ⟨cfgB, wA ++ wB, ?_, ?_, ?_, ?_⟩
    · have heq : check_sections_choices cfg (sd :: rest)
          = match check_items_choices cfg sd.name sd.items with
            | Except.error e => Except.error e
            | Except.ok (cfg1, w1) =>
              match check_sections_choices cfg1 rest with
              | Except.error e => Except.error e
              | Except.ok (cfg2, w2) => Except.ok (cfg2, w1 ++ w2) := rfl
      rw [heq, hA]
      show (match check_sections_choices cfgA rest with
            | Except.error e => Except.error e
            | Except.ok (cfg2, w2) => Except.ok (cfg2, wA ++ w2))
          = Except.ok (cfgB, wA ++ wB)
      rw [hB]
    · intro s2 i2 hnotin
      have hne : s2 ≠ sd.name := by
        intro hc
        exact hnotin (by simp [hc])
      have hnr : s2 ∉ rest.map SectionDefaults.name := by
        intro hc
        exact hnotin (by simp [hc])
      rw [hslotB s2 i2 hnr, hslotA s2 i2 (Or.inl hne)]
    · intro s2 i2 v hv
      obtain ⟨v1, hv1⟩ := hsomeA s2 i2 v hv
      exact hsomeB s2 i2 v1 hv1
    · intro pr hpr
      rcases List.mem_append.1 hpr with hm | hm
      · rw [(hwA pr hm).1]
        simp
      · have := hwB pr hm
        simp only [List.map_cons, List.mem_cons]
        exact Or.inr this

theorem check_sections_located (pre post : Defaults) (sd : SectionDefaults)
    (item : String) (opt : ItemOpt) (ipre ipost : List (String × ItemOpt))
    (cfg : PyConfig)
    (hready : readyAllB cfg (pre ++ sd :: post) = true)
    (hpre : sd.name ∉ pre.map SectionDefaults.name)
    (hpost : sd.name ∉ post.map SectionDefaults.name)
    (hitems : sd.items = ipre ++ (item, opt) :: ipost)
    (hipre : item ∉ ipre.map Prod.fst) (hipost : item ∉ ipost.map Prod.fst)
    (hch : opt.choices.isEmpty = false) (raw : String)
    (hr : rawGet cfg sd.name item = .ok (some raw)) :
    ∃ cfg' w, check_sections_choices cfg (pre ++ sd :: post) = .ok (cfg', w) ∧
      rawGet cfg' sd.name item = .ok (itemSlotOut raw opt) ∧
      ((sd.name, item) ∈ w ↔ itemWarns raw opt = true) := by
  have hready3 : readyAllB cfg pre = true ∧
      readyItemsB cfg sd.name sd.items = true ∧ readyAllB cfg post = true := by
    unfold readyAllB at hready
    rw [List.all_append, Bool.and_eq_true, List.all_cons, Bool.and_eq_true] at hready
    exact ⟨hready.1, hready.2.1, hready.2.2⟩
  obtain ⟨cfgA, wA, hA, hslotA, hsomeA, hwA⟩ := check_sections_go pre cfg hready3.1
  have hrA : rawGet cfgA sd.name item = .ok (some raw) := by
    rw [hslotA sd.name item hpre]
    exact hr
  have hreadyItemsA : readyItemsB cfgA sd.name (ipre ++ (item, opt) :: ipost) = true := by
    rw [← hitems]
    exact readyItemsB_mono cfg cfgA sd.name sd.items hsomeA hready3.2.1
  obtain ⟨cfgB, wB, hB, hslotB, hmemB, hsomeB, hpresB⟩ :=
    check_items_located sd.name item opt ipre ipost cfgA hreadyItemsA hipre hipost hch raw hrA
  have hreadypost : readyAllB cfgB post = true :=
    readyAllB_mono cfgA cfgB post hsomeB
      (readyAllB_mono cfg cfgA post hsomeA hready3.2.2)
  obtain ⟨cfgC, wC, hC, hslotC, hsomeC, hwC⟩ := check_sections_go post cfgB hreadypost
  refine ⟨cfgC, wA ++ (wB ++ wC), ?_, ?_, ?_⟩
  · rw [check_sections_append pre (sd :: post) cfg, hA]
    show (match check_sections_choices cfgA (sd :: post) with
          | Except.error e => Except.error e
          | Except.ok (cfg2, w2) => Except.ok (cfg2, wA ++ w2))
        = Except.ok (cfgC, wA ++ (wB ++ wC))
    have hcons : check_sections_choices cfgA (sd :: post) = .ok (cfgC, wB ++ wC) := by
      have heq : check_sections_choices cfgA (sd :: post)
          = match check_items_choices cfgA sd.name sd.items with
            | Except.error e => Except.error e
            | Except.ok (cfg1, w1) =>
              match check_sections_choices cfg1 post with
              | Except.error e => Except.error e
              | Except.ok (cfg2, w2) => Except.ok (cfg2, w1 ++ w2) := rfl
      rw [heq, hitems, hB]
      show (match check_sections_choices cfgB post with
            | Except.error e => Except.error e
            | Except.ok (cfg2, w2) => Except.ok (cfg2, wB ++ w2))
          = Except.ok (cfgC, wB ++ wC)
      rw [hC]
    rw [hcons]
  · rw [hslotC sd.name item hpost]
    exact hslotB
  · constructor
    · intro hmem
      rcases List.mem_append.1 hmem with hm | hm
      · exact absurd ((hwA _ hm) : sd.name ∈ pre.map SectionDefaults.name) hpre
      · rcases List.mem_append.1 hm with hm2 | hm2
        · exact hmemB.1 hm2
        · exact absurd ((hwC _ hm2) : sd.name ∈ post.map SectionDefaults.name) hpost
    · intro hw
      exact List.mem_append.2 (Or.inr (List.mem_append.2 (Or.inl (hmemB.2 hw))))

/-! ### Claim C1 -/

/-- C1: for a multi-choice (list-typed) option with a declared choice set,
located anywhere in the schema (unique section names and item titles around
it), with every choice-checked option holding a stored string, the validation
sweep run by construction succeeds; when the stored value parses to tokens of
which some are not declared choices, the persisted value becomes exactly the
comma-joined valid tokens in their original order and a warning for that
section/option is emitted; an empty stored selection is left untouched with no
warning. -/
theorem c1_multi_choice_list_validation
    (dflts pre post : Defaults) (sd : SectionDefaults)
    (item : String) (opt : ItemOpt) (ipre ipost : List (String × ItemOpt))
    (cfg : PyConfig) (raw : String)
    (hd : dflts = pre ++ sd :: post)
    (hready : readyAllB cfg dflts = true)
    (hpre : sd.name ∉ pre.map SectionDefaults.name)
    (hpost : sd.name ∉ post.map SectionDefaults.name)
    (hitems : sd.items = ipre ++ (item, opt) :: ipost)
    (hipre : item ∉ ipre.map Prod.fst) (hipost : item ∉ ipost.map Prod.fst)
    (htype : opt.type = DataType.dlist)
    (hch : opt.choices.isEmpty = false)
    (hr : rawGet cfg sd.name item = .ok (some raw)) :
    ∃ cfg' w, check_config_choices cfg dflts = .ok (cfg', w) ∧
      ((parse_list raw).any (fun v => !opt.choices.contains v) = true →
        rawGet cfg' sd.name item
          = .ok (some (joinWith ", "
              ((parse_list raw).filter (fun v => opt.choices.contains v)))) ∧
        (sd.name, item) ∈ w) ∧
      ((parse_list raw).isEmpty = true →
        rawGet cfg' sd.name item = .ok (some raw) ∧ (sd.name, item) ∉ w) := by
  subst hd
  obtain ⟨cfg', w, hrun, hslot, hmem⟩ :=
    check_sections_located pre post sd item opt ipre ipost cfg hready
      hpre hpost hitems hipre hipost hch raw hr
  refine ⟨cfg', w, hrun, ?_, ?_⟩
  · intro hany
    have hne : (parse_list raw).isEmpty = false := by
      cases hl : parse_list raw with
      | nil =>
        rw [hl] at hany
        simp at hany
      | cons a as => rfl
    have hv : itemSlotOut raw opt
        = some (joinWith ", " ((parse_list raw).filter (fun v => opt.choices.contains v))) := by
      simp only [itemSlotOut]
      rw [if_pos htype, if_neg (by rw [hne]; simp), if_pos hany]
    refine ⟨by rw [hslot, hv], ?_⟩
    have hw : itemWarns raw opt = true := by
      simp only [itemWarns]
      rw [if_pos htype, hne, hany]
      rfl
    exact hmem.mpr hw
  · intro hemp
    have hv : itemSlotOut raw opt = some raw := by
      simp only [itemSlotOut]
      rw [if_pos htype, if_pos hemp]
    refine ⟨by rw [hslot, hv], ?_⟩
    intro hmw
    have hw := hmem.mp hmw
    simp only [itemWarns] at hw
    rw [if_pos htype, hemp] at hw
    simp at hw

theorem c1_witness :
    readyAllB c1Cfg c1Dflts = true ∧
    rawGet c1Cfg "sect" "opt" = .ok (some "a, b, c") ∧
    (∃ cfg' w, check_config_choices c1Cfg c1Dflts = .ok (cfg', w) ∧
      ((parse_list "a, b, c").any (fun v => !c1Opt.choices.contains v) = true →
        rawGet cfg' "sect" "opt"
          = .ok (some (joinWith ", "
              ((parse_list "a, b, c").filter (fun v => c1Opt.choices.contains v)))) ∧
        ("sect", "opt") ∈ w) ∧
      ((parse_list "a, b, c").isEmpty = true →
        rawGet cfg' "sect" "opt" = .ok (some "a, b, c") ∧ ("sect", "opt") ∉ w)) :=
  ⟨by decide, by rfl,
   c1_multi_choice_list_validation c1Dflts [] [] ⟨"sect", "h", [("opt", c1Opt)]⟩
     "opt" c1Opt [] [] c1Cfg "a, b, c" rfl (by decide) (by simp) (by simp) rfl
     (by simp) (by simp) rfl rfl (by rfl)⟩

/-! ### Claim C7 -/

/-- C7: for a single-choice (non-list) option with a declared choice set,
located anywhere in the schema, with every choice-checked option holding a
stored string, the validation sweep run by construction succeeds; a stored
value equal to `"none"` case-insensitively is accepted unchanged (no warning)
when some declared choice equals `"none"` case-insensitively; otherwise a
stored value that is not an exact case-sensitive member of the choices is
reset to the string form of the schema default and a warning for that
section/option is recorded. -/
theorem c7_single_choice_validation
    (dflts pre post : Defaults) (sd : SectionDefaults)
    (item : String) (opt : ItemOpt) (ipre ipost : List (String × ItemOpt))
    (cfg : PyConfig) (raw : String)
    (hd : dflts = pre ++ sd :: post)
    (hready : readyAllB cfg dflts = true)
    (hpre : sd.name ∉ pre.map SectionDefaults.name)
    (hpost : sd.name ∉ post.map SectionDefaults.name)
    (hitems : sd.items = ipre ++ (item, opt) :: ipost)
    (hipre : item ∉ ipre.map Prod.fst) (hipost : item ∉ ipost.map Prod.fst)
    (htype : ¬ opt.type = DataType.dlist)
    (hch : opt.choices.isEmpty = false)
    (hr : rawGet cfg sd.name item = .ok (some raw)) :
    ∃ cfg' w, check_config_choices cfg dflts = .ok (cfg', w) ∧
      ((pyLower raw = "none" && opt.choices.any (fun c => pyLower c = "none")) = true →
        rawGet cfg' sd.name item = .ok (some raw) ∧ (sd.name, item) ∉ w) ∧
      ((pyLower raw = "none" && opt.choices.any (fun c => pyLower c = "none")) = false →
        opt.choices.contains raw = false →
        rawGet cfg' sd.name item = .ok (some (pyStr opt.default)) ∧
        (sd.name, item) ∈ w) := by
  subst hd
  obtain ⟨cfg', w, hrun, hslot, hmem⟩ :=
    check_sections_located pre post sd item opt ipre ipost cfg hready
      hpre hpost hitems hipre hipost hch raw hr
  refine ⟨cfg', w, hrun, ?_, ?_⟩
  · intro hexc
    have hv : itemSlotOut raw opt = some raw := by
      simp only [itemSlotOut]
      rw [if_neg htype, if_pos hexc]
    refine ⟨by rw [hslot, hv], ?_⟩
    intro hmw
    have hw := hmem.mp hmw
    simp only [itemWarns] at hw
    rw [if_neg htype, hexc] at hw
    simp at hw
  · intro hexc hcont
    have hv : itemSlotOut raw opt = some (pyStr opt.default) := by
      simp only [itemSlotOut]
      rw [if_neg htype, if_neg (by rw [hexc]; simp), if_pos (by rw [hcont]; rfl)]
    refine ⟨by rw [hslot, hv], ?_⟩
    have hw : itemWarns raw opt = true := by
      simp only [itemWarns]
      rw [if_neg htype, hexc, hcont]
      rfl
    exact hmem.mpr hw

theorem c7_witness :
    readyAllB c7Cfg c7Dflts = true ∧
    rawGet c7Cfg "sect" "opt" = .ok (some "z") ∧
    c7Opt.choices.contains "z" = false ∧
    (∃ cfg' w, check_config_choices c7Cfg c7Dflts = .ok (cfg', w) ∧
      ((pyLower "z" = "none" && c7Opt.choices.any (fun c => pyLower c = "none")) = true →
        rawGet cfg' "sect" "opt" = .ok (some "z") ∧ ("sect", "opt") ∉ w) ∧
      ((pyLower "z" = "none" && c7Opt.choices.any (fun c => pyLower c = "none")) = false →
        c7Opt.choices.contains "z" = false →
        rawGet cfg' "sect" "opt" = .ok (some (pyStr c7Opt.default)) ∧
        ("sect", "opt") ∈ w)) :=
  ⟨by decide, by rfl, by decide,
   c7_single_choice_validation c7Dflts [] [] ⟨"sect", "h", [("opt", c7Opt)]⟩
     "opt" c7Opt [] [] c7Cfg "z" rfl (by decide) (by simp) (by simp) rfl
     (by simp) (by simp) (by decide) rfl (by rfl)⟩

/-! ### Lemmas: the `config_dict` collation sweep -/

theorem isOkVal_iff (r : Except String PyVal) : isOkVal r = true ↔ ∃ v, r = .ok v := by
  cases r <;> simp [isOkVal]

theorem cdKeys_cons (p : String × Option String) (kvs : List (String × Option String)) :
    cdKeys (p :: kvs)
      = if (strStarts p.1 "#" || strStarts p.1 "\n") = true then cdKeys kvs
        else p.1 :: cdKeys kvs := by
  cases h1 : strStarts p.1 "#" with
  | true => simp [cdKeys, List.filter_cons, h1]
  | false =>
    cases h2 : strStarts p.1 "\n" with
    | true => simp [cdKeys, List.filter_cons, h1, h2]
    | false => simp [cdKeys, List.filter_cons, h1, h2]

theorem cdKeys_append (l1 l2 : List (String × Option String)) :
    cdKeys (l1 ++ l2) = cdKeys l1 ++ cdKeys l2 := by
  simp [cdKeys, List.filter_append]

theorem comment_not_mem_cdKeys (k : String) (kvs : List (String × Option String))
    (hc : (strStarts k "#" || strStarts k "\n") = true) : k ∉ cdKeys kvs := by
  intro hmem
  unfold cdKeys at hmem
  obtain ⟨p, hp, hpk⟩ := List.mem_map.1 hmem
  rw [List.mem_filter] at hp
  have h2 := hp.2
  rw [hpk, hc] at h2
  simp at h2

theorem config_dict_keys_go (dflts : Defaults) (cfg : PyConfig) (sctn : String)
    (kvs : List (String × Option String)) :
    ∀ conf, keysReadyB dflts cfg sctn kvs = true →
      ∃ conf', config_dict_keys dflts cfg sctn kvs conf = .ok conf' ∧
        (∀ k, k ∉ cdKeys kvs → dictFind conf' k = dictFind conf k) := by
  induction kvs with
  | nil =>
    intro conf _
    exact ⟨conf, rfl, fun _ _ => rfl⟩
  | cons p rest ih =>
    intro conf hready
    cases p with
    | mk key rv =>
      have hready2 : ((strStarts key "#" || strStarts key "\n") ||
          isOkVal (get dflts cfg sctn key)) = true ∧
          keysReadyB dflts cfg sctn rest = true := by
        unfold keysReadyB at hready
        rw [List.all_cons, Bool.and_eq_true] at hready
        exact hready
      have heq : config_dict_keys dflts cfg sctn ((key, rv) :: rest) conf
          = if strStarts key "#" || strStarts key "\n"
            then config_dict_keys dflts cfg sctn rest conf
            else match get dflts cfg sctn key with
              | Except.error e => Except.error e
              | Except.ok v => config_dict_keys dflts cfg sctn rest (dictSet conf key v) := rfl
      by_cases hc : (strStarts key "#" || strStarts key "\n") = true
      · obtain ⟨conf', hrun, hpres⟩ := ih conf hready2.2
        refine ⟨conf', ?_, ?_⟩
        · rw [heq, if_pos hc]
          exact hrun
        · intro k hk
          rw [cdKeys_cons, if_pos hc] at hk
          exact hpres k hk
      · have hc2 : (strStarts key "#" || strStarts key "\n") = false := by
          cases hx : (strStarts key "#" || strStarts key "\n")
          · rfl
          · exact absurd hx hc
        have hok : isOkVal (get dflts cfg sctn key) = true := by
          have := hready2.1
          rw [hc2] at this
          simpa using this
        obtain ⟨v, hv⟩ := (isOkVal_iff _).1 hok
        obtain ⟨conf', hrun, hpres⟩ := ih (dictSet conf key v) hready2.2
        refine ⟨conf', ?_, ?_⟩
        · rw [heq, if_neg hc, hv]
          exact hrun
        · intro k hk
          have hkeys : k ∉ key :: cdKeys rest := by
            rw [cdKeys_cons, if_neg hc] at hk
            exact hk
          rw [List.mem_cons] at hkeys
          push_neg at hkeys
          rw [hpres k hkeys.2, dictFind_dictSet_ne conf k key v (Ne.symm hkeys.1)]

theorem config_dict_keys_append (dflts : Defaults) (cfg : PyConfig) (sctn : String)
    (l1 l2 : List (String × Option String)) :
    ∀ conf, config_dict_keys dflts cfg sctn (l1 ++ l2) conf
      = match config_dict_keys dflts cfg sctn l1 conf with
        | Except.error e => Except.error e
        | Except.ok conf1 => config_dict_keys dflts cfg sctn l2 conf1 := by
  induction l1 with
  | nil =>
    intro conf
    show config_dict_keys dflts cfg sctn l2 conf = config_dict_keys dflts cfg sctn l2 conf
    rfl
  | cons p rest ih =>
    intro conf
    cases p with
    | mk key rv =>
      have heq1 : config_dict_keys dflts cfg sctn ((key, rv) :: (rest ++ l2)) conf
          = if strStarts key "#" || strStarts key "\n"
            then config_dict_keys dflts cfg sctn (rest ++ l2) conf
            else match get dflts cfg sctn key with
              | Except.error e => Except.error e
              | Except.ok v =>
                config_dict_keys dflts cfg sctn (rest ++ l2) (dictSet conf key v) := rfl
      have heq2 : config_dict_keys dflts cfg sctn ((key, rv) :: rest) conf
          = if strStarts key "#" || strStarts key "\n"
            then config_dict_keys dflts cfg sctn rest conf
            else match get dflts cfg sctn key with
              | Except.error e => Except.error e
              | Except.ok v => config_dict_keys dflts cfg sctn rest (dictSet conf key v) := rfl
      rw [List.cons_append, heq1, heq2]
      by_cases hc : (strStarts key "#" || strStarts key "\n") = true
      · rw [if_pos hc, if_pos hc]
        exact ih conf
      · rw [if_neg hc, if_neg hc]
        cases hg : get dflts cfg sctn key with
        | error e => rfl
        | ok v => exact ih (dictSet conf key v)

theorem config_dict_keys_located (dflts : Defaults) (cfg : PyConfig) (sctn : String)
    (kpre kpost : List (String × Option String)) (key : String) (rv : Option String)
    (v : PyVal) (conf : List (String × PyVal))
    (hready : keysReadyB dflts cfg sctn (kpre ++ (key, rv) :: kpost) = true)
    (hc : (strStarts key "#" || strStarts key "\n") = false)
    (hkpost : key ∉ cdKeys kpost)
    (hv : get dflts cfg sctn key = .ok v) :
    ∃ conf', config_dict_keys dflts cfg sctn (kpre ++ (key, rv) :: kpost) conf = .ok conf' ∧
      dictFind conf' key = some v ∧
      (∀ k, k ∉ cdKeys (kpre ++ (key, rv) :: kpost) →
        dictFind conf' k = dictFind conf k) := by
  have hready3 : keysReadyB dflts cfg sctn kpre = true ∧
      keysReadyB dflts cfg sctn kpost = true := by
    unfold keysReadyB at hready
    rw [List.all_append, Bool.and_eq_true, List.all_cons, Bool.and_eq_true] at hready
    exact ⟨hready.1, hready.2.2⟩
  obtain ⟨confA, hA, hpresA⟩ := config_dict_keys_go dflts cfg sctn kpre conf hready3.1
  obtain ⟨conf', hB, hpresB⟩ :=
    config_dict_keys_go dflts cfg sctn kpost (dictSet confA key v) hready3.2
  have hstep : config_dict_keys dflts cfg sctn ((key, rv) :: kpost) confA = .ok conf' := by
    have heq : config_dict_keys dflts cfg sctn ((key, rv) :: kpost) confA
        = if strStarts key "#" || strStarts key "\n"
          then config_dict_keys dflts cfg sctn kpost confA
          else match get dflts cfg sctn key with
            | Except.error e => Except.error e
            | Except.ok v2 =>
              config_dict_keys dflts cfg sctn kpost (dictSet confA key v2) := rfl
    rw [heq, if_neg (by rw [hc]; simp), hv]
    exact hB
  refine ⟨conf', ?_, ?_, ?_⟩
  · rw [config_dict_keys_append dflts cfg sctn kpre ((key, rv) :: kpost) conf, hA]
    exact hstep
  · rw [hpresB key hkpost, dictFind_dictSet_self]
  · intro k hk
    rw [cdKeys_append, cdKeys_cons, if_neg (by rw [hc]; simp)] at hk
    rw [List.mem_append, List.mem_cons] at hk
    push_neg at hk
    rw [hpresB k hk.2.2, dictFind_dictSet_ne confA k key v (Ne.symm hk.2.1), hpresA k hk.1]

theorem config_dict_sections_append (dflts : Defaults) (cfg : PyConfig)
    (l1 l2 : List String) :
    ∀ conf, config_dict_sections dflts cfg (l1 ++ l2) conf
      = match config_dict_sections dflts cfg l1 conf with
        | Except.error e => Except.error e
        | Except.ok conf1 => config_dict_sections dflts cfg l2 conf1 := by
  induction l1 with
  | nil =>
    intro conf
    show config_dict_sections dflts cfg l2 conf = config_dict_sections dflts cfg l2 conf
    rfl
  | cons s rest ih =>
    intro conf
    have heq1 : config_dict_sections dflts cfg (s :: (rest ++ l2)) conf
        = match cfgSection cfg s with
          | none => config_dict_sections dflts cfg (rest ++ l2) conf
          | some kvs =>
            match config_dict_keys dflts cfg s kvs conf with
            | Except.error e => Except.error e
            | Except.ok conf1 => config_dict_sections dflts cfg (rest ++ l2) conf1 := rfl
    have heq2 : config_dict_sections dflts cfg (s :: rest) conf
        = match cfgSection cfg s with
          | none => config_dict_sections dflts cfg rest conf
          | some kvs =>
            match config_dict_keys dflts cfg s kvs conf with
            | Except.error e => Except.error e
            | Except.ok conf1 => config_dict_sections dflts cfg rest conf1 := rfl
    rw [List.cons_append, heq1, heq2]
    cases hs : cfgSection cfg s with
    | none => exact ih conf
    | some kvs =>
      show (match config_dict_keys dflts cfg s kvs conf with
            | Except.error e => Except.error e
            | Except.ok conf1 => config_dict_sections dflts cfg (rest ++ l2) conf1)
          = match (match config_dict_keys dflts cfg s kvs conf with
                   | Except.error e => Except.error e
                   | Except.ok conf1 => config_dict_sections dflts cfg rest conf1) with
            | Except.error e => Except.error e
            | Except.ok conf1 => config_dict_sections dflts cfg l2 conf1
      cases hk : config_dict_keys dflts cfg s kvs conf with
      | error e => rfl
      | ok conf1 => exact ih conf1

theorem config_dict_sections_go (dflts : Defaults) (cfg : PyConfig) (secs : List String) :
    ∀ conf, dictReadyB dflts cfg secs = true →
      ∃ conf', config_dict_sections dflts cfg secs conf = .ok conf' ∧
        (∀ k, (∀ s ∈ secs, ∀ kvs, cfgSection cfg s = some kvs → k ∉ cdKeys kvs) →
          dictFind conf' k = dictFind conf k) := by
  induction secs with
  | nil =>
    intro conf _
    exact ⟨conf, rfl, fun _ _ => rfl⟩
  | cons s rest ih =>
    intro conf hready
    have hready2 : sectReadyB dflts cfg s = true ∧ dictReadyB dflts cfg rest = true := by
      unfold dictReadyB at hready
      rw [List.all_cons, Bool.and_eq_true] at hready
      exact hready
    have heq : config_dict_sections dflts cfg (s :: rest) conf
        = match cfgSection cfg s with
          | none => config_dict_sections dflts cfg rest conf
          | some kvs =>
            match config_dict_keys dflts cfg s kvs conf with
            | Except.error e => Except.error e
            | Except.ok conf1 => config_dict_sections dflts cfg rest conf1 := rfl
    cases hs : cfgSection cfg s with
    | none =>
      obtain ⟨conf', hrun, hpres⟩ := ih conf hready2.2
      refine ⟨conf', ?_, ?_⟩
      · rw [heq, hs]
        exact hrun
      · intro k hk
        exact hpres k (fun s2 hs2 kvs hkvs => hk s2 (List.mem_cons_of_mem s hs2) kvs hkvs)
    | some kvs =>
      have hkeysReady : keysReadyB dflts cfg s kvs = true := by
        have := hready2.1
        unfold sectReadyB at this
        rw [hs] at this
        exact this
      obtain ⟨confA, hA, hpresA⟩ := config_dict_keys_go dflts cfg s kvs conf hkeysReady
      obtain ⟨conf', hrun, hpres⟩ := ih confA hready2.2
      refine ⟨conf', ?_, ?_⟩
      · rw [heq, hs]
        show (match config_dict_keys dflts cfg s kvs conf with
              | Except.error e => Except.error e
              | Except.ok conf1 => config_dict_sections dflts cfg rest conf1)
            = Except.ok conf'
        rw [hA]
        exact hrun
      · intro k hk
        rw [hpres k (fun s2 hs2 kvs2 hkvs2 => hk s2 (List.mem_cons_of_mem s hs2) kvs2 hkvs2),
          hpresA k (hk s (List.mem_cons_self s rest) kvs hs)]

theorem config_dict_sections_located (dflts : Defaults) (cfg : PyConfig)
    (spre spost : List String) (gsect key : String)
    (gkvs kpre kpost : List (String × Option String)) (rv : Option String)
    (v : PyVal) (conf : List (String × PyVal))
    (hready : dictReadyB dflts cfg (spre ++ gsect :: spost) = true)
    (hsect : cfgSection cfg gsect = some gkvs)
    (hgkvs : gkvs = kpre ++ (key, rv) :: kpost)
    (hc : (strStarts key "#" || strStarts key "\n") = false)
    (hkpost : key ∉ cdKeys kpost)
    (hv : get dflts cfg gsect key = .ok v)
    (hlater : ∀ s ∈ spost, ∀ kvs2, cfgSection cfg s = some kvs2 → key ∉ cdKeys kvs2) :
    ∃ conf', config_dict_sections dflts cfg (spre ++ gsect :: spost) conf = .ok conf' ∧
      dictFind conf' key = some v ∧
      (∀ k, (∀ s ∈ spre ++ gsect :: spost, ∀ kvs2, cfgSection cfg s = some kvs2 →
          k ∉ cdKeys kvs2) →
        dictFind conf' k = dictFind conf k) := by
  have hready3 : dictReadyB dflts cfg spre = true ∧
      sectReadyB dflts cfg gsect = true ∧ dictReadyB dflts cfg spost = true := by
    unfold dictReadyB at hready
    rw [List.all_append, Bool.and_eq_true, List.all_cons, Bool.and_eq_true] at hready
    exact ⟨hready.1, hready.2.1, hready.2.2⟩
  have hkeysReady : keysReadyB dflts cfg gsect (kpre ++ (key, rv) :: kpost) = true := by
    have := hready3.2.1
    unfold sectReadyB at this
    rw [hsect, hgkvs] at this
    exact this
  obtain ⟨confA, hA, hpresA⟩ := config_dict_sections_go dflts cfg spre conf hready3.1
  obtain ⟨confB, hB, hfindB, hpresB⟩ :=
    config_dict_keys_located dflts cfg gsect kpre kpost key rv v confA hkeysReady
      hc hkpost hv
  obtain ⟨conf', hC, hpresC⟩ := config_dict_sections_go dflts cfg spost confB hready3.2.2
  have hstep : config_dict_sections dflts cfg (gsect :: spost) confA = .ok conf' := by
    have heq : config_dict_sections dflts cfg (gsect :: spost) confA
        = match cfgSection cfg gsect with
          | none => config_dict_sections dflts cfg spost confA
          | some kvs =>
            match config_dict_keys dflts cfg gsect kvs confA with
            | Except.error e => Except.error e
            | Except.ok conf1 => config_dict_sections dflts cfg spost conf1 := rfl
    rw [heq, hsect]
    show (match config_dict_keys dflts cfg gsect gkvs confA with
          | Except.error e => Except.error e
          | Except.ok conf1 => config_dict_sections dflts cfg spost conf1)
        = Except.ok conf'
    rw [hgkvs, hB]
    exact hC
  refine ⟨conf', ?_, ?_, ?_⟩
  · rw [config_dict_sections_append dflts cfg spre (gsect :: spost) conf, hA]
    exact hstep
  · rw [hpresC key hlater, hfindB]
  · intro k hk
    have hkpre : ∀ s ∈ spre, ∀ kvs2, cfgSection cfg s = some kvs2 → k ∉ cdKeys kvs2 :=
      fun s hs => hk s (List.mem_append.2 (Or.inl hs))
    have hkpost2 : ∀ s ∈ spost, ∀ kvs2, cfgSection cfg s = some kvs2 → k ∉ cdKeys kvs2 :=
      fun s hs => hk s (List.mem_append.2 (Or.inr (List.mem_cons_of_mem gsect hs)))
    have hkg : k ∉ cdKeys (kpre ++ (key, rv) :: kpost) := by
      rw [← hgkvs]
      exact hk gsect (List.mem_append.2 (Or.inr (List.mem_cons_self gsect spost))) gkvs hsect
    rw [hpresC k hkpost2, hpresB k hkg, hpresA k hkpre]

/-! ### Claim C9 -/

/-- C9: an option key stored (non-comment) in a `global`-prefixed section of
the config, resolving through `get`, appears in the collated `config_dict` of
any other target section with exactly its typed value, provided it is not
redeclared in a later-processed section (the remaining globals or the target
section itself) — and every comment-prefixed stray key is absent from the
collated dictionary. -/
theorem c9_global_merge
    (dflts : Defaults) (cfg : PyConfig) (selfSection gsect key : String)
    (gpre gpost : List String)
    (gkvs kpre kpost : List (String × Option String)) (rv : Option String) (v : PyVal)
    (hglob : (cfg.map Prod.fst).filter (fun s => strStarts s "global")
      = gpre ++ gsect :: gpost)
    (hready : dictReadyB dflts cfg
      ((cfg.map Prod.fst).filter (fun s => strStarts s "global") ++ [selfSection]) = true)
    (hsect : cfgSection cfg gsect = some gkvs)
    (hgkvs : gkvs = kpre ++ (key, rv) :: kpost)
    (hc : (strStarts key "#" || strStarts key "\n") = false)
    (hkpost : key ∉ cdKeys kpost)
    (hv : get dflts cfg gsect key = .ok v)
    (_hne : selfSection ≠ gsect)
    (hlater : ∀ s ∈ gpost ++ [selfSection], ∀ kvs2, cfgSection cfg s = some kvs2 →
      key ∉ cdKeys kvs2) :
    ∃ conf, config_dict dflts cfg selfSection = .ok conf ∧
      dictFind conf key = some v ∧
      (∀ kc, (strStarts kc "#" || strStarts kc "\n") = true → dictFind conf kc = none) := by
  have hlist : (cfg.map Prod.fst).filter (fun s => strStarts s "global") ++ [selfSection]
      = gpre ++ gsect :: (gpost ++ [selfSection]) := by
    rw [hglob]
    simp
  rw [hlist] at hready
  obtain ⟨conf, hrun, hfind, hpres⟩ :=
    config_dict_sections_located dflts cfg gpre (gpost ++ [selfSection]) gsect key
      gkvs kpre kpost rv v [] hready hsect hgkvs hc hkpost hv hlater
  refine ⟨conf, ?_, hfind, ?_⟩
  · show config_dict_sections dflts cfg
        ((cfg.map Prod.fst).filter (fun s => strStarts s "global") ++ [selfSection]) []
      = .ok conf
    rw [hlist]
    exact hrun
  · intro kc hkc
    have hp := hpres kc (fun s _ kvs2 _ => comment_not_mem_cdKeys kc kvs2 hkc)
    rw [hp]
    rfl

theorem c9_witness :
    dictReadyB c9Dflts c9Cfg
      ((c9Cfg.map Prod.fst).filter (fun s => strStarts s "global") ++ ["tgt"]) = true ∧
    get c9Dflts c9Cfg "global" "gkey" = .ok (PyVal.vInt 3) ∧
    (∃ conf, config_dict c9Dflts c9Cfg "tgt" = .ok conf ∧
      dictFind conf "gkey" = some (PyVal.vInt 3) ∧
      (∀ kc, (strStarts kc "#" || strStarts kc "\n") = true → dictFind conf kc = none)) :=
  ⟨by decide, by rfl,
   c9_global_merge c9Dflts c9Cfg "tgt" "global" "gkey" [] []
     [("gkey", some "3")] [] [] (some "3") (PyVal.vInt 3)
     (by rfl) (by decide) (by rfl) rfl (by decide) (by decide) (by rfl) (by decide)
     (by
       intro s hs kvs2 hkvs2
       simp at hs
       subst hs
       rw [show cfgSection c9Cfg "tgt" = some [("tkey", some "5")] from rfl] at hkvs2
       injection hkvs2 with h3
       subst h3
       decide)⟩

end FaceswapConfig
